import Mathlib

/-!
Verification development for the Scorched Earth artillery game core
(collisions.py, scorcher_earth.py, terrain_generation.py).

Modelling conventions:
* kivy Vector is embedded as the structure Vec over the real numbers;
  Python float arithmetic is idealised as exact real arithmetic.
* Angles: the Python code stores rotations in degrees and feeds them to
  cos/sin when rotating.  We represent a rotation angle directly by the
  pair of its cosine and sine (structure Rot); Rot.IsRotation states the
  defining identity cos squared plus sin squared equals one.  kivy
  Vector.rotate(angle) is a pure function returning a new vector; it is
  embedded as Vec.rot.
* Real-valued branch conditions are classically decidable; definitions
  with such branches are noncomputable, matching the fact that the
  source decides them with floating point tests.
* The terrain generator works over integers and rationals and is kept
  fully computable (see the terrain generation section below).
-/

namespace SE

noncomputable section

open Classical

/-- Embedding of kivy Vector: a pair of real coordinates. -/
structure Vec where
  x : ℝ
  y : ℝ

instance : Add Vec := ⟨fun a b => ⟨a.x + b.x, a.y + b.y⟩⟩

instance : Sub Vec := ⟨fun a b => ⟨a.x - b.x, a.y - b.y⟩⟩

/-- kivy Vector scalar multiplication (vector * scalar). -/
def Vec.smul (v : Vec) (k : ℝ) : Vec := ⟨v.x * k, v.y * k⟩

/-- kivy Vector division by a scalar. -/
def Vec.div (v : Vec) (k : ℝ) : Vec := ⟨v.x / k, v.y / k⟩

/-- kivy Vector.dot. -/
def Vec.dot (a b : Vec) : ℝ := a.x * b.x + a.y * b.y

/-- kivy Vector.length2: squared euclidean norm. -/
def Vec.length2 (v : Vec) : ℝ := v.x ^ 2 + v.y ^ 2

/-- kivy Vector.length: euclidean norm. -/
def Vec.length (v : Vec) : ℝ := Real.sqrt (v.x ^ 2 + v.y ^ 2)

/-- kivy Vector.distance between two points. -/
def Vec.distance (a b : Vec) : ℝ :=
  Real.sqrt ((a.x - b.x) ^ 2 + (a.y - b.y) ^ 2)

/-- kivy Vector.normalize: returns the zero vector when both components are
zero, otherwise divides by the length. -/
def Vec.normalize (v : Vec) : Vec :=
  if v.x = 0 ∧ v.y = 0 then ⟨0, 0⟩ else ⟨v.x / v.length, v.y / v.length⟩

/-- A rotation angle, represented by its cosine and sine. -/
structure Rot where
  c : ℝ
  s : ℝ

/-- The pair (c, s) is the cosine/sine of an actual angle. -/
def Rot.IsRotation (ρ : Rot) : Prop := ρ.c ^ 2 + ρ.s ^ 2 = 1

/-- kivy Vector.rotate(angle) for the angle whose cosine/sine is ρ:
(x cos a - y sin a, y cos a + x sin a).  Pure: returns a new vector. -/
def Vec.rot (v : Vec) (ρ : Rot) : Vec :=
  ⟨v.x * ρ.c - v.y * ρ.s, v.y * ρ.c + v.x * ρ.s⟩

/-- kivy Vector.in_bbox(point, a, b): the point lies between a and b in each
coordinate, whichever of a and b is smaller. -/
def Vec.in_bbox (p a b : Vec) : Prop :=
  ((p.x ≤ a.x ∧ p.x ≥ b.x) ∨ (p.x ≤ b.x ∧ p.x ≥ a.x)) ∧
    ((p.y ≤ a.y ∧ p.y ≥ b.y) ∨ (p.y ≤ b.y ∧ p.y ≥ a.y))

/-- kivy Vector.line_intersection of the infinite lines v1v2 and v3v4;
none when the determinant denominator vanishes (parallel lines). -/
def line_intersection (v1 v2 v3 v4 : Vec) : Option Vec :=
  let u := v1.x * v2.y - v1.y * v2.x
  let w := v3.x * v4.y - v3.y * v4.x
  let denom := (v1.x - v2.x) * (v3.y - v4.y) - (v1.y - v2.y) * (v3.x - v4.x)
  if denom = 0 then none
  else
    some ⟨(u * (v3.x - v4.x) - (v1.x - v2.x) * w) / denom,
          (u * (v3.y - v4.y) - (v1.y - v2.y) * w) / denom⟩

/-- Both-coordinates range test used by kivy Vector.segment_intersection. -/
def in_range (val a b : ℝ) : Prop := min a b ≤ val ∧ val ≤ max a b

/-- kivy Vector.segment_intersection: the line intersection point if it lies
within both segments bounding boxes, otherwise none. -/
def segment_intersection (v1 v2 v3 v4 : Vec) : Option Vec :=
  match line_intersection v1 v2 v3 v4 with
  | none => none
  | some i =>
      if in_range i.x v1.x v2.x ∧ in_range i.x v3.x v4.x ∧
          in_range i.y v1.y v2.y ∧ in_range i.y v3.y v4.y then some i
      else none

/-- collisions.Rectangle: center, size, bottom-left offset from the center in
the axis-aligned position, and rotation about the center. -/
structure Rectangle where
  center : Vec
  size : Vec
  bl_offset : Vec
  rotation : Rot

namespace Rectangle

/-- Axis-aligned bottom-left corner relative to center. -/
def get_aligned_bl (r : Rectangle) : Vec := r.bl_offset

/-- Axis-aligned bottom-right corner relative to center. -/
def get_aligned_br (r : Rectangle) : Vec := r.bl_offset + ⟨r.size.x, 0⟩

/-- Axis-aligned top-left corner relative to center. -/
def get_aligned_tl (r : Rectangle) : Vec := r.bl_offset + ⟨0, r.size.y⟩

/-- Axis-aligned top-right corner relative to center. -/
def get_aligned_tr (r : Rectangle) : Vec := r.bl_offset + r.size

/-- Rotated bottom-left corner relative to center. -/
def get_local_bl (r : Rectangle) : Vec := r.get_aligned_bl.rot r.rotation

/-- Rotated bottom-right corner relative to center. -/
def get_local_br (r : Rectangle) : Vec := r.get_aligned_br.rot r.rotation

/-- Rotated top-left corner relative to center. -/
def get_local_tl (r : Rectangle) : Vec := r.get_aligned_tl.rot r.rotation

/-- Rotated top-right corner relative to center. -/
def get_local_tr (r : Rectangle) : Vec := r.get_aligned_tr.rot r.rotation

/-- World-space bottom-left corner. -/
def get_bl (r : Rectangle) : Vec := r.get_local_bl + r.center

/-- World-space bottom-right corner. -/
def get_br (r : Rectangle) : Vec := r.get_local_br + r.center

/-- World-space top-left corner. -/
def get_tl (r : Rectangle) : Vec := r.get_local_tl + r.center

/-- World-space top-right corner. -/
def get_tr (r : Rectangle) : Vec := r.get_local_tr + r.center

/-- The four corners in source order: bl, br, tr, tl. -/
def get_vertexes (r : Rectangle) : List Vec :=
  [r.get_bl, r.get_br, r.get_tr, r.get_tl]

/-- The four edges in source order. -/
def get_sides (r : Rectangle) : List (Vec × Vec) :=
  [(r.get_bl, r.get_br), (r.get_br, r.get_tr),
   (r.get_tr, r.get_tl), (r.get_tl, r.get_bl)]

/-- Axis-aligned bounding box (min x, min y, max x, max y) over the corners. -/
def get_bbox (r : Rectangle) : ℝ × ℝ × ℝ × ℝ :=
  (min (min r.get_bl.x r.get_br.x) (min r.get_tr.x r.get_tl.x),
   min (min r.get_bl.y r.get_br.y) (min r.get_tr.y r.get_tl.y),
   max (max r.get_bl.x r.get_br.x) (max r.get_tr.x r.get_tl.x),
   max (max r.get_bl.y r.get_br.y) (max r.get_tr.y r.get_tl.y))

/-- Source Rectangle.collide_point.  The Python body is:
p = point - self.center; p.rotate(-self.rotation);
return Vector.in_bbox(p, self.get_aligned_bl(), self.get_local_tr()).
Since kivy Vector.rotate is pure and its result is discarded, p stays
un-rotated, and the box corners mix the aligned bottom-left with the
rotated top-right, exactly as written in the source. -/
def collide_point (r : Rectangle) (point : Vec) : Prop :=
  Vec.in_bbox (point - r.center) r.get_aligned_bl r.get_local_tr

/-- Source Rectangle.collide_line_segment: some side intersects the segment,
or both endpoints are inside the rectangle. -/
def collide_line_segment (r : Rectangle) (v1 v2 : Vec) : Prop :=
  (∃ side ∈ r.get_sides, (segment_intersection side.1 side.2 v1 v2).isSome) ∨
    (r.collide_point v1 ∧ r.collide_point v2)

/-- Source Rectangle.collide_rectangle: some pair of sides intersects, or
every vertex of the other rectangle is inside this one. -/
def collide_rectangle (r rect : Rectangle) : Prop :=
  (∃ s ∈ r.get_sides, ∃ t ∈ rect.get_sides,
      (segment_intersection s.1 s.2 t.1 t.2).isSome) ∨
    ∀ v ∈ rect.get_vertexes, r.collide_point v

end Rectangle

/-- collisions.Circle: position and radius. -/
structure Circle where
  pos : Vec
  r : ℝ

namespace Circle

/-- Source Circle.get_bbox: (x - r, y - r, x + r, y + r). -/
def get_bbox (c : Circle) : ℝ × ℝ × ℝ × ℝ :=
  (c.pos.x - c.r, c.pos.y - c.r, c.pos.x + c.r, c.pos.y + c.r)

/-- Source Circle.solve_quadratic: (has solution, larger root, smaller root)
of a t^2 + b t + c = 0, via the discriminant. -/
def solve_quadratic (a b c : ℝ) : Bool × ℝ × ℝ :=
  let disc := b ^ 2 - 4 * a * c
  if disc < 0 then (false, 0, 0)
  else (true, (-b + Real.sqrt disc) / (2 * a), (-b - Real.sqrt disc) / (2 * a))

/-- Source Circle.get_y_at(x): solves for the two y values in which the
vertical line at x meets the circle. -/
def get_y_at (c : Circle) (x : ℝ) : Bool × ℝ × ℝ :=
  solve_quadratic 1 (-2 * c.pos.y) (c.pos.y ^ 2 + (x - c.pos.x) ^ 2 - c.r ^ 2)

/-- Source Circle.collide_point: distance from the center at most the radius
(boundary inclusive). -/
def collide_point (c : Circle) (point : Vec) : Prop :=
  c.pos.distance point ≤ c.r

/-- Source Circle.collide_line_segment: an endpoint inside the circle, or a
root of the parameterised quadratic lies within the segment range [0, 1]. -/
def collide_line_segment (c : Circle) (v1 v2 : Vec) : Prop :=
  c.collide_point v1 ∨ c.collide_point v2 ∨
    (let dir := v2 - v1
     let qa := dir.dot dir
     let qb := 2 * dir.dot (v1 - c.pos)
     let qc := v1.dot v1 + c.pos.dot c.pos - 2 * v1.dot c.pos - c.r ^ 2
     let sol := solve_quadratic qa qb qc
     sol.1 = true ∧
       ((0 ≤ sol.2.1 ∧ sol.2.1 ≤ 1) ∨ (0 ≤ sol.2.2 ∧ sol.2.2 ≤ 1)))

/-- The quantity r^2 - (x - cx)^2 for a circle: nonnegative exactly when
the vertical line at x meets the circle, in which case the two y values
returned by get_y_at are the center y plus/minus its square root. -/
def ddisc (c : Circle) (x : ℝ) : ℝ := c.r ^ 2 - (x - c.pos.x) ^ 2

end Circle

namespace Terrain

/-- Source Terrain.get_segments: reads a transitions list pairwise as
(bottom, top) segments.  The source asserts the list has even length; a
leftover odd element yields no further segment. -/
def get_segments : List ℝ → List (ℝ × ℝ)
  | b :: t :: rest => (b, t) :: get_segments rest
  | _ => []

/-- Source Terrain.collide_with: some integer column x in the clamped
bounding-box range of the rectangle has a segment whose vertical boundary
segment collides with the rectangle. -/
def collide_with (rect : Rectangle) (parts : List (List ℝ)) : Prop :=
  let bb := rect.get_bbox
  ∃ i : ℕ, (max ⌊bb.1⌋ 0 ≤ (i : ℤ) ∧ (i : ℤ) < min ⌈bb.2.2.1⌉ (parts.length : ℤ)) ∧
    ∃ seg ∈ get_segments (parts.getD i []),
      rect.collide_line_segment ⟨i, seg.1⟩ ⟨i, seg.2⟩

/-- One interval of Terrain.explode's inner loop: the replacement for the
(bottom, top) segment at column x.  The four branches follow the source:
skip, delete, raise bottom to the upper circle root, lower top to the lower
circle root, or split by inserting both roots. -/
def processPair (c : Circle) (x : ℝ) (bt : ℝ × ℝ) : List ℝ :=
  if ¬ c.collide_line_segment ⟨x, bt.1⟩ ⟨x, bt.2⟩ then [bt.1, bt.2]
  else if c.collide_point ⟨x, bt.1⟩ ∧ c.collide_point ⟨x, bt.2⟩ then []
  else if c.collide_point ⟨x, bt.1⟩ then [(c.get_y_at x).2.1, bt.2]
  else if c.collide_point ⟨x, bt.2⟩ then [bt.1, (c.get_y_at x).2.2]
  else [bt.1, (c.get_y_at x).2.2, (c.get_y_at x).2.1, bt.2]

/-- Terrain.explode's inner loop over one column.  The source iterates the
segments backward, deleting and inserting in place; since the edit for
segment i only touches positions from 2i upward and i runs downward, this
equals replacing each original segment independently and concatenating. -/
def excavate_column (c : Circle) (x : ℝ) : List ℝ → List ℝ
  | b :: t :: rest => processPair c x (b, t) ++ excavate_column c x rest
  | other => other

/-- Terrain.explode's outer loop: for each list index i (the column), apply
the excavation when lo ≤ i < hi, where i counts up from the given start. -/
def explodeGo (c : Circle) (lo hi : ℤ) : ℕ → List (List ℝ) → List (List ℝ)
  | _, [] => []
  | i, col :: rest =>
      (if lo ≤ (i : ℤ) ∧ (i : ℤ) < hi then excavate_column c (i : ℝ) col
       else col) :: explodeGo c lo hi (i + 1) rest

/-- Source Terrain.explode: excavate every column in the circle's clamped
bounding-box range (the right end rounded up and then extended by one). -/
def explode (c : Circle) (parts : List (List ℝ)) : List (List ℝ) :=
  let bb := c.get_bbox
  explodeGo c (max ⌊bb.1⌋ 0) (min (⌈bb.2.2.1⌉ + 1) (parts.length : ℤ)) 0 parts

end Terrain

/-- Source function clamp(value, min_val, max_val). -/
def clamp (value min_val max_val : ℝ) : ℝ := max (min value max_val) min_val

/-- The Shell widget state used by the physics: kivy pos (x, y is the
bottom-left corner), size, velocity, and the ballistic parameters set at
construction.  The firing player is identified by a roster id standing for
the Python object identity of shell.player. -/
structure Shell where
  player : ℕ
  x : ℝ
  y : ℝ
  w : ℝ
  h : ℝ
  vx : ℝ
  vy : ℝ
  init_power : ℝ
  init_angle : ℝ
  mass : ℝ
  gravity : ℝ
  wind : ℝ
  drag_coef : ℝ
  explosion_radius : ℝ

namespace Shell

/-- kivy widget center x. -/
def center_x (s : Shell) : ℝ := s.x + s.w / 2

/-- kivy widget center y. -/
def center_y (s : Shell) : ℝ := s.y + s.h / 2

/-- kivy widget right edge. -/
def right (s : Shell) : ℝ := s.x + s.w

/-- kivy widget top edge. -/
def top (s : Shell) : ℝ := s.y + s.h

/-- Rotation of the shell rectangle.  The source uses get_angle(), the
degree angle of the velocity against the x axis (via atan2); the rotation
by that angle has cosine vx over the speed and sine vy over the speed.
atan2(0, 0) = 0 gives the identity rotation for a zero velocity. -/
def dir (s : Shell) : Rot :=
  if s.vx = 0 ∧ s.vy = 0 then ⟨1, 0⟩
  else ⟨s.vx / Vec.length ⟨s.vx, s.vy⟩, s.vy / Vec.length ⟨s.vx, s.vy⟩⟩

/-- Source Shell.get_rectangle: centered on the shell, its size, bottom-left
offset minus half the size, rotated to the velocity direction. -/
def get_rectangle (s : Shell) : Rectangle :=
  ⟨⟨s.center_x, s.center_y⟩, ⟨s.w, s.h⟩, ⟨-(s.w / 2), -(s.h / 2)⟩, s.dir⟩

/-- Source Shell.update(dt): move by velocity, apply gravity to vy, subtract
the wind-relative drag force divided by mass from the velocity, then bounce
off the left/right walls (invert vx, clamp right then x into [0, width]) and
off the ceiling (invert vy, clamp top into [0, height]).  pw, ph are the
parent (Map) width and height. -/
def update (s : Shell) (dt pw ph : ℝ) : Shell :=
  let x1 := s.x + s.vx * dt
  let y1 := s.y + s.vy * dt
  let vy1 := s.vy - s.gravity * dt
  let air : Vec := ⟨s.vx - s.wind, vy1⟩
  let drag := Vec.smul air.normalize (s.drag_coef * air.length2)
  let vx2 := s.vx - (Vec.div drag s.mass).x
  let vy2 := vy1 - (Vec.div drag s.mass).y
  let bx := x1 < 0 ∨ x1 + s.w > pw
  let vx3 := if bx then -vx2 else vx2
  let x2 := if bx then clamp (clamp (x1 + s.w) 0 pw - s.w) 0 pw else x1
  let by_ := y1 + s.h > ph
  let vy3 := if by_ then -vy2 else vy2
  let y2 := if by_ then clamp (y1 + s.h) 0 ph - s.h else y1
  { s with x := x2, y := y2, vx := vx3, vy := vy3 }

end Shell

namespace Map

/-- Source Map.terrain_collision: an unconditional hit when the shell
rectangle's bounding box dips below y = 0 (no terrain test, no excavation);
otherwise test the terrain and, on a hit, excavate the explosion circle.
Returns the hit flag together with the resulting solid_parts. -/
def terrain_collision (sh : Shell) (parts : List (List ℝ)) :
    Bool × List (List ℝ) :=
  let rect := sh.get_rectangle
  let bb := rect.get_bbox
  if bb.2.1 < 0 then (true, parts)
  else if ¬ Terrain.collide_with rect parts then (false, parts)
  else (true, Terrain.explode ⟨rect.center, sh.explosion_radius⟩ parts)

end Map

namespace Rectangle

/-- State-passing form of Rectangle.get_bl: the returned value together with
the receiver's field state after the call.  The source method only reads the
fields (kivy vector operations are pure, returning new vectors), so the
resulting state is the receiver unchanged. -/
def get_blM (r : Rectangle) : Vec × Rectangle := (r.get_bl, r)

/-- State-passing form of Rectangle.get_vertexes; no field is written. -/
def get_vertexesM (r : Rectangle) : List Vec × Rectangle := (r.get_vertexes, r)

/-- State-passing form of Rectangle.get_sides; no field is written. -/
def get_sidesM (r : Rectangle) : List (Vec × Vec) × Rectangle := (r.get_sides, r)

/-- State-passing form of Rectangle.collide_point; the local p is a fresh
vector and no field is written. -/
def collide_pointM (r : Rectangle) (p : Vec) : Prop × Rectangle :=
  (r.collide_point p, r)

/-- State-passing form of Rectangle.collide_line_segment; no field is
written. -/
def collide_line_segmentM (r : Rectangle) (v1 v2 : Vec) : Prop × Rectangle :=
  (r.collide_line_segment v1 v2, r)

/-- State-passing form of Rectangle.collide_rectangle; no field is
written. -/
def collide_rectangleM (r rect : Rectangle) : Prop × Rectangle :=
  (r.collide_rectangle rect, r)

end Rectangle

/-- scorcher_earth.Trace: an immutable record of one completed shot. -/
structure Trace where
  power : ℝ
  angle : ℝ
  wind : ℝ
  points : List (ℝ × ℝ)

/-- scorcher_earth.Player.  Python object identity is modelled by the id
field: the roster never holds two players with the same id.  Name and color
are presentation data and omitted. -/
structure Player where
  id : ℕ
  traces : List Trace
  kills : ℕ
  shots : ℕ

instance : Inhabited Player := ⟨⟨0, [], 0, 0⟩⟩

/-- Source Player.add_trace on a deque with maxlen MAX_TRACES = 10: the
oldest trace is dropped from the left when the deque is full. -/
def Player.add_trace (p : Player) (t : Trace) : Player :=
  { p with traces := if p.traces.length < 10 then p.traces ++ [t]
                     else p.traces.tail ++ [t] }

/-- Python list indexing semantics: nonnegative indices from the front,
negative indices from the back, none when out of range (IndexError). -/
def pyIndex {α : Type} (l : List α) (i : ℤ) : Option α :=
  if 0 ≤ i then l.get? i.toNat
  else if 0 ≤ (l.length : ℤ) + i then l.get? ((l.length : ℤ) + i).toNat
  else none

/-- The index a Python access l[i] actually reads, as a natural number. -/
def pyNat (len : ℕ) (i : ℤ) : ℕ :=
  if 0 ≤ i then i.toNat else ((len : ℤ) + i).toNat

/-- Increment the kill counter of the player at list position n (the Python
mutation get_c_player().kills += 1 through the roster). -/
def bumpKills : ℕ → List Player → List Player
  | _, [] => []
  | 0, p :: rest => { p with kills := p.kills + 1 } :: rest
  | n + 1, p :: rest => p :: bumpKills n rest

/-- The Game screen state relevant to the simulation core.  UI widgets,
input bindings and the scheduled clock events are presentation and are not
part of the state; the random wind draw of switch_player is modelled by an
explicit parameter.  victoryInfo records what Game.victory writes to the
victory screen (player count, winner id, winner kills, winner shots),
copied before end() resets the player objects. -/
structure GameState where
  players : List Player
  c_player_idx : ℤ
  shell : Option Shell
  tracer : Option (List (ℝ × ℝ))
  terrain : List (List ℝ)
  wind : ℝ
  init_player_count : ℕ
  victoryInfo : Option (ℕ × ℕ × ℕ × ℕ)
  map_w : ℝ
  map_h : ℝ

namespace GameState

/-- Source Game.get_c_player: self.players[self.c_player_idx]. -/
def get_c_player (s : GameState) : Option Player :=
  pyIndex s.players s.c_player_idx

/-- Source Game.remove_player: find the roster index of the player (Python
list.index with default object identity, here id equality), decrement the
current index when the removed index is at or before it, and delete the
entry.  The removed object's reset() only mutates that object, which is no
longer reachable from the roster. -/
def remove_player (s : GameState) (p : Player) : GameState :=
  let idx := s.players.findIdx (fun q => q.id == p.id)
  { s with
    players := s.players.eraseIdx idx,
    c_player_idx :=
      if (idx : ℤ) ≤ s.c_player_idx then s.c_player_idx - 1
      else s.c_player_idx }

/-- Source Game.switch_player: advance the index by one modulo the remaining
player count and draw a new wind (the draw is the newWind parameter; trace
redisplay and input re-enabling are presentation). -/
def switch_player (s : GameState) (newWind : ℝ) : GameState :=
  { s with
    c_player_idx := (s.c_player_idx + 1) % (s.players.length : ℤ),
    wind := newWind }

/-- Source Game.collide_players: the first player whose tank collides with
the shell.  Tank geometry lives in the widget tree (Tank.collide_with
reads widget layout coordinates), so the per-player test is a parameter
co of the orchestrator model. -/
def collide_players (co : Player → Shell → Bool) (s : GameState)
    (sh : Shell) : Option Player :=
  s.players.find? (fun p => co p sh)

/-- Source Game.check_collisions: players first (credit a kill to the
current player and remove the hit player), then terrain.  Returns (collided,
hit player or none, resulting state). -/
def check_collisions (co : Player → Shell → Bool) (s : GameState)
    (sh : Shell) : Bool × Option Player × GameState :=
  match collide_players co s sh with
  | some p =>
      let s1 := { s with
        players := bumpKills (pyNat s.players.length s.c_player_idx) s.players }
      (true, some p, s1.remove_player p)
  | none =>
      let tc := Map.terrain_collision sh s.terrain
      if tc.1 then (true, none, { s with terrain := tc.2 })
      else (false, none, s)

/-- Source Game.end: the remove_player loop over a copy of the roster, the
widget/tracer cleanup, then reset().  Only the fields of this model are
tracked; reset restores them to the initial configuration. -/
def end_game (s : GameState) : GameState :=
  let s1 := s.players.foldl (fun st p => st.remove_player p) s
  { s1 with players := [], c_player_idx := 0, shell := none, tracer := none,
            init_player_count := 0 }

/-- Source Game.victory: copy the player count and the winner's statistics
to the victory screen, then end the match. -/
def victory (s : GameState) (player_count : ℕ) (p : Player) : GameState :=
  end_game { s with victoryInfo := some (player_count, p.id, p.kills, p.shots) }

/-- The collision step Game.update performs when a shell is in flight:
advance the shell one tick, then run check_collisions on the state holding
the advanced shell.  This names the intermediate value of update so that
properties of update can refer to it. -/
def collisionStep (s : GameState) (co : Player → Shell → Bool) (dt : ℝ)
    (sh : Shell) : Bool × Option Player × GameState :=
  let sh1 := sh.update dt s.map_w s.map_h
  check_collisions co { s with shell := some sh1 } sh1

/-- Source Game.update(dt) with a shell in flight: advance the shell, check
collisions; on a hit, either declare victory (one player left) or end the
tracer, record the firer's trace when the hit entity is not the firer,
drop the shell and switch players.  newWind models switch_player's random
draw; co is the tank collision test (widget geometry). -/
def update (co : Player → Shell → Bool) (newWind : ℝ) (dt : ℝ)
    (s : GameState) : GameState :=
  match s.shell with
  | none => s
  | some sh =>
      let sh1 := sh.update dt s.map_w s.map_h
      let r := check_collisions co { s with shell := some sh1 } sh1
      if r.1 = false then r.2.2
      else if r.2.2.players.length = 1 then
        r.2.2.victory s.init_player_count r.2.2.players.headI
      else
        let tps := s.tracer.getD []
        let doTrace : Bool :=
          match r.2.1 with
          | none => true
          | some p => p.id != sh1.player
        let s2 :=
          if doTrace then
            { r.2.2 with players := r.2.2.players.map (fun q =>
                if q.id = sh1.player then
                  q.add_trace ⟨sh1.init_power, sh1.init_angle, sh1.wind, tps⟩
                else q) }
          else r.2.2
        switch_player { s2 with shell := none, tracer := none } newWind

end GameState

end

/-!
Terrain generation (terrain_generation.py).  This part of the code uses
only integer and rational arithmetic (Python ints, and exact fractions for
the feature waypoint coordinates), so it is embedded computably.  Python's
random draws are modelled by an oracle stream of naturals: randrange(lo,
hi) maps the next oracle value into [lo, hi) and fails exactly when the
range is empty (Python ValueError); random.choice picks by the next oracle
value.  The unbounded retry loop in get_topology is given explicit fuel;
exhausting it is reported as an error (the Python loop would keep
drawing). -/

/-- Stream of random draws. -/
def Oracle : Type := ℕ → ℕ

/-- Failures of the terrain generator: an empty randrange (ValueError), a
non-integer randrange bound (ValueError), a pop from an empty list
(IndexError), or retry fuel exhaustion. -/
inductive GenErr where
  | emptyRange
  | nonIntegerArg
  | popEmpty
  | fuelExhausted
deriving DecidableEq, Repr

/-- Python random.randrange(lo, hi): a uniform draw from [lo, hi), failing
on an empty range.  The k-th oracle value selects the result. -/
def randrange (o : Oracle) (k : ℕ) (lo hi : ℤ) : Except GenErr (ℤ × ℕ) :=
  if hi ≤ lo then .error .emptyRange
  else .ok (lo + (o k % (hi - lo).toNat : ℕ), k + 1)

/-- Python random.randrange with a rational lower bound, as used by
create_plateau (map_height / 20 is a float): integral floats are accepted,
a fractional bound raises ValueError. -/
def randrangeQ (o : Oracle) (k : ℕ) (lo : ℚ) (hi : ℤ) : Except GenErr (ℤ × ℕ) :=
  if lo.den ≠ 1 then .error .nonIntegerArg
  else randrange o k lo.num hi

/-- Python random.choice on a non-empty list, selected by the k-th oracle
value. -/
def choice {α : Type} [Inhabited α] (o : Oracle) (k : ℕ) (l : List α) :
    α × ℕ :=
  (l.getD (o k % l.length) default, k + 1)

/-- Valley forms drawn by create_valley. -/
inductive VForm where
  | deep
  | shallow
  | wavy
deriving DecidableEq, Repr

instance : Inhabited VForm := ⟨VForm.deep⟩

/-- Hill forms drawn by create_hill. -/
inductive HForm where
  | steep
  | concave
deriving DecidableEq, Repr

instance : Inhabited HForm := ⟨HForm.steep⟩

/-- Source create_valley: waypoints for a valley feature; max_height is
accepted but unused, as in the source. -/
def create_valley (o : Oracle) (k : ℕ) (map_h prev_h _max_h : ℤ)
    (size : ℚ) : List (ℚ × ℚ) × ℕ :=
  let fk := choice o k [VForm.deep, VForm.shallow, VForm.wavy]
  match fk.1 with
  | .deep =>
      if (prev_h : ℚ) > (map_h : ℚ) / 2 then
        ([(size / 4, (prev_h : ℚ) * 5 / 6), (size / 2, (prev_h : ℚ) / 4),
          (size, (map_h : ℚ) / 20)], fk.2)
      else
        ([(size / 4, (prev_h : ℚ) / 2), (size / 2, (map_h : ℚ) / 10),
          (size, (map_h : ℚ) / 20)], fk.2)
  | .shallow =>
      ([(size / 4, (prev_h : ℚ) * 5 / 6), (size / 2, (prev_h : ℚ) / 2),
        (size, (prev_h : ℚ) / 4)], fk.2)
  | .wavy =>
      ([(size / 4, (prev_h : ℚ) / 2), (size / 2, (prev_h : ℚ)),
        (size * 3 / 4, (prev_h : ℚ) / 2), (size, (prev_h : ℚ))], fk.2)

/-- Source create_hill: waypoints for a hill feature. -/
def create_hill (o : Oracle) (k : ℕ) (map_h prev_h max_h : ℤ)
    (size : ℚ) : List (ℚ × ℚ) × ℕ :=
  let fk := choice o k [HForm.steep, HForm.concave]
  match fk.1 with
  | .steep =>
      if (prev_h : ℚ) < (map_h : ℚ) / 2 then
        ([(size / 4, min ((prev_h : ℚ) * 2) (max_h : ℚ)),
          (size / 2, min ((map_h : ℚ) * 4 / 5) (max_h : ℚ)),
          (size, min ((map_h : ℚ) * 9 / 10) (max_h : ℚ))], fk.2)
      else
        ([(size / 4, min ((map_h : ℚ) * 4 / 5) (max_h : ℚ)),
          (size / 2, min ((map_h : ℚ) * 9 / 10) (max_h : ℚ)),
          (size, min ((map_h : ℚ) * 9 / 10) (max_h : ℚ))], fk.2)
  | .concave =>
      ([(size / 2, (map_h : ℚ) / 2), (size, (map_h : ℚ) * 3 / 4)], fk.2)

/-- Source create_plateau: a single random height drawn from
randrange(map_height / 20, max_height). -/
def create_plateau (o : Oracle) (k : ℕ) (map_h _prev_h max_h : ℤ)
    (size : ℚ) : Except GenErr (List (ℚ × ℚ) × ℕ) := do
  let hk ← randrangeQ o k ((map_h : ℚ) / 20) max_h
  .ok ([(size / 4, (hk.1 : ℚ)), (size, (hk.1 : ℚ))], hk.2)

/-- Dispatch on the generator index drawn in get_topology:
generators = [create_valley, create_hill, create_plateau]. -/
def gen_feature (o : Oracle) (k : ℕ) (idx : ℕ) (map_h prev_h max_h : ℤ)
    (size : ℚ) : Except GenErr (List (ℚ × ℚ) × ℕ) :=
  match idx with
  | 0 => .ok (create_valley o k map_h prev_h max_h size)
  | 1 => .ok (create_hill o k map_h prev_h max_h size)
  | _ => create_plateau o k map_h prev_h max_h size

/-- The retry loop of get_topology: draw randrange(3) until the drawn index
does not occur twice in the previous two choices.  Fuel bounds the retries
(the Python loop retries indefinitely). -/
def drawIdx (o : Oracle) : ℕ → ℕ → List ℕ → Except GenErr (ℕ × ℕ)
  | 0, _, _ => .error .fuelExhausted
  | fuel + 1, k, previous =>
      let idx := o k % 3
      if previous.count idx ≠ 2 then .ok (idx, k + 1)
      else drawIdx o fuel (k + 1) previous

/-- The feature loop of get_topology: n features remain, i is the feature
number (points are shifted by i * FEATURE_SIZE on x), previous holds the
last two generator indices. -/
def topoLoop (o : Oracle) (fuel : ℕ) (map_h init_height max_h : ℤ) :
    ℕ → ℕ → List ℕ → List (ℚ × ℚ) → ℕ → Except GenErr (List (ℚ × ℚ) × ℕ)
  | 0, _, _, acc, k => .ok (acc, k)
  | n + 1, i, previous, acc, k => do
      let ik ← drawIdx o fuel k previous
      let pk ← gen_feature o ik.2 ik.1 map_h init_height max_h 200
      let shifted := pk.1.map (fun p => (p.1 + (i : ℚ) * 200, p.2))
      topoLoop o fuel map_h init_height max_h n (i + 1)
        (previous.tail ++ [ik.1]) (acc ++ shifted) pk.2

/-- Source get_topology: ceil(map width / FEATURE_SIZE) features, an initial
pair of generator indices, then the feature loop.  FEATURE_SIZE = 200. -/
def get_topology (o : Oracle) (fuel : ℕ) (k : ℕ) (init_height : ℤ)
    (map_w map_h max_h : ℤ) : Except GenErr (List (ℚ × ℚ) × ℕ) :=
  let num_features := (⌈(map_w : ℚ) / 200⌉).toNat
  let p0 := o k % 3
  let p1 := o (k + 1) % 3
  topoLoop o fuel map_h init_height max_h num_features 0 [p0, p1] [] (k + 2)

/-- Source get_terrain_height: interpolate toward the next feature waypoint
(slope doubled when a tank spot comes before the waypoint), round up, and
draw a noisy height from randrange(max(nh - NOISE_SIZE, 1),
min(nh + NOISE_SIZE, max_height)) with NOISE_SIZE = 4. -/
def get_terrain_height (o : Oracle) (k : ℕ) (x : ℤ)
    (prev_height max_height next_tank_pos : ℤ) (next_feature_pos : ℚ × ℚ) :
    Except GenErr (ℤ × ℕ) :=
  let dist_x := next_feature_pos.1 - (x : ℚ)
  let dist_y := next_feature_pos.2 - (prev_height : ℚ)
  let height_diff :=
    if dist_x ≠ 0 then
      if (next_tank_pos : ℚ) < next_feature_pos.1 then 2 * (dist_y / dist_x)
      else dist_y / dist_x
    else dist_y
  let next_height := ⌈(prev_height : ℚ) + height_diff⌉
  randrange o k (max (next_height - 4) 1) (min (next_height + 4) max_height)

/-- Insertion of a value into an ascending list, keeping it ascending. -/
def insertSorted (a : ℤ) : List ℤ → List ℤ
  | [] => [a]
  | b :: l => if b ≤ a then b :: insertSorted a l else a :: b :: l

/-- Python sorted(...) on integers, ascending (insertion sort; equal
integers are indistinguishable, so stability is moot). -/
def pySorted : List ℤ → List ℤ
  | [] => []
  | a :: l => insertSorted a (pySorted l)

/-- The mutable state of generate_terrain's column loop.  s_t_p holds the
remaining tank positions in ascending order (the source keeps them sorted
descending and pops from the back); feature_points likewise holds the
remaining waypoints in their generated order (the source reverses and pops
from the back). -/
structure GenState where
  prev_height : ℤ
  s_t_p : List ℤ
  next_tank_pos : ℤ
  feature_points : List (ℚ × ℚ)
  next_feature_pos : ℚ × ℚ
  tank_positions : List (ℤ × ℤ)
  solid_parts : List (List ℤ)
  k : ℕ
deriving Repr

/-- One iteration of generate_terrain's column loop at column x: pick the
terrain top (fresh draw before and at a tank position, the previous height
inside a tank's flat zone and in the move-to-next-tank branch), then pop
the next feature waypoint when this column reaches the current one, and
append the column [0, top].  Failures of the random draws and of the
waypoint pop propagate, as the Python exceptions would. -/
def genStep (o : Oracle) (map_w max_h tank_w : ℤ) (x : ℤ) (st : GenState) :
    Except GenErr GenState :=
  let tkE : Except GenErr (ℤ × GenState) :=
    if x < st.next_tank_pos then
      match get_terrain_height o st.k x st.prev_height max_h
          st.next_tank_pos st.next_feature_pos with
      | .error e => .error e
      | .ok hk => .ok (hk.1, { st with k := hk.2 })
    else if x = st.next_tank_pos then
      match get_terrain_height o st.k x st.prev_height max_h
          st.next_tank_pos st.next_feature_pos with
      | .error e => .error e
      | .ok hk => .ok (hk.1, { st with
          k := hk.2
          tank_positions := st.tank_positions ++ [(x, hk.1)] })
    else if st.next_tank_pos < x ∧ x < st.next_tank_pos + tank_w - 1 then
      .ok (st.prev_height, st)
    else
      match st.s_t_p with
      | [] => .ok (st.prev_height, { st with next_tank_pos := map_w + 1 })
      | t :: rest =>
          .ok (st.prev_height, { st with next_tank_pos := t, s_t_p := rest })
  match tkE with
  | .error e => .error e
  | .ok tk =>
      match (if ⌊tk.2.next_feature_pos.1⌋ = x then
               match tk.2.feature_points with
               | [] => Except.error GenErr.popEmpty
               | f :: rest =>
                   Except.ok { tk.2 with
                     next_feature_pos := f, feature_points := rest }
             else Except.ok tk.2) with
      | .error e => .error e
      | .ok st3 =>
          .ok { st3 with solid_parts := st3.solid_parts ++ [[0, tk.1]],
                         prev_height := tk.1 }

/-- The column loop of generate_terrain: n columns remain, starting at
column x. -/
def genLoop (o : Oracle) (map_w max_h tank_w : ℤ) :
    ℕ → ℤ → GenState → Except GenErr GenState
  | 0, _, st => .ok st
  | n + 1, x, st =>
      match genStep o map_w max_h tank_w x st with
      | .error e => .error e
      | .ok st1 => genLoop o map_w max_h tank_w n (x + 1) st1

/-- Source generate_terrain: initial height draw, tank position stack (the
source sorts descending and pops from the back, equivalently consumed here
in ascending order from the front), topology waypoints (likewise reversed
and popped from the back, consumed here in order), then the column loop;
returns the per-column transition lists and the resolved tank
positions. -/
def generate_terrain (o : Oracle) (fuel : ℕ) (map_w map_h : ℤ)
    (tank_x_positions : List ℤ) (tank_w tank_h : ℤ) :
    Except GenErr (List (List ℤ) × List (ℤ × ℤ)) :=
  let max_h := map_h - tank_h * 2
  match randrange o 0 0 map_h with
  | .error e => .error e
  | .ok dk =>
      let prev := min dk.1 max_h
      match pySorted tank_x_positions with
      | [] => .error .popEmpty
      | t :: rest =>
          match get_topology o fuel dk.2 prev map_w map_h max_h with
          | .error e => .error e
          | .ok fk =>
              match fk.1 with
              | [] => .error .popEmpty
              | f :: frest =>
                  match genLoop o map_w max_h tank_w map_w.toNat 0
                      ⟨prev, rest, t, frest, f, [], [], fk.2⟩ with
                  | .error e => .error e
                  | .ok stF => .ok (stF.solid_parts, stF.tank_positions)

/-- C9 oracle: every draw takes the first value in range except the third,
which takes the second; under it the topology loop picks the generator
indices 0, 1 and then a valley of the deep form with no retries. -/
def c9Oracle : Oracle := fun k => if k = 2 then 1 else 0

noncomputable section

open Classical

/-- C1 failing input: a unit-square-like rectangle rotated by the angle
with cosine 3/5 and sine 4/5. -/
def c1Rect : Rectangle := ⟨⟨0, 0⟩, ⟨2, 2⟩, ⟨-1, -1⟩, ⟨3 / 5, 4 / 5⟩⟩

/-- C1 failing input: a point strictly inside the local box of c1Rect. -/
def c1LocalPoint : Vec := ⟨9 / 10, 0⟩

/-- The world position of c1LocalPoint under the rotation of c1Rect about
its center. -/
def c1WorldPoint : Vec := c1LocalPoint.rot c1Rect.rotation + c1Rect.center

/-- C6 witness input: a shell below the floor (bottom edge at y = -10),
moving right. -/
def c6Shell : Shell :=
  ⟨0, 4, -10, 2, 1, 1, 0, 50, 45, 100, 200, 0, 0, 25⟩

/-- C8 witness input: a shell with left edge at -1 and vx = -50, zero drag
coefficient (and zero gravity and wind, so the numbers stay closed). -/
def c8Shell : Shell :=
  ⟨0, -1, 0, 2, 1, -50, 0, 50, 180, 100, 0, 0, 0, 25⟩

/-- C8 counterexample input: as c8Shell but with the default drag
coefficient 0.0025, under which the inverted x velocity is 49.9375, not
exactly 50. -/
def c8cShell : Shell :=
  ⟨0, -1, 0, 2, 1, -50, 0, 50, 180, 100, 0, 0, 1 / 400, 25⟩

/-- C10 witness input: a three-player game with the current player at
roster index 0. -/
def c10Game : GameState :=
  ⟨[⟨0, [], 0, 0⟩, ⟨1, [], 0, 0⟩, ⟨2, [], 0, 0⟩], 0, none, none, [], 0, 3,
    none, 800, 600⟩

/-- C7 witness input: a motionless shell fired by the player with id 0. -/
def c7Shell : Shell :=
  ⟨0, 100, 100, 2, 1, 0, 0, 50, 45, 100, 0, 0, 0, 25⟩

/-- C7 witness input: a tank collision oracle under which exactly the
player with id 1 is hit. -/
def c7co : Player → Shell → Bool := fun p _ => p.id == 1

/-- C7 witness input: a three-player game with c7Shell in flight and an
active tracer holding one sample point. -/
def c7Game : GameState :=
  ⟨[⟨0, [], 0, 0⟩, ⟨1, [], 0, 0⟩, ⟨2, [], 0, 0⟩], 0, some c7Shell,
    some [(1, 2)], [], 0, 3, none, 800, 600⟩

end

/-!
Theorems.  Everything below is proved about the definitions above.
-/

section Theorems

open Classical

theorem Vec.add_def (a b : Vec) : a + b = ⟨a.x + b.x, a.y + b.y⟩ := rfl

theorem Vec.sub_def (a b : Vec) : a - b = ⟨a.x - b.x, a.y - b.y⟩ := rfl

/-- C1: the spec asserts that a point strictly inside the local box of a
rectangle collides with the rectangle after both are rotated by the same
angle about the center.  The code slip (Rectangle.collide_point discards
the result of the pure p.rotate(-rotation) call and compares the aligned
bottom-left against the rotated top-right) makes this fail for the
rotation with cosine 3/5 and sine 4/5: the point 9/10, 0 is strictly
inside the local box yet collide_point rejects its rotated position. -/
theorem c1_rotated_interior_point_not_detected :
    c1Rect.rotation.IsRotation ∧
    (c1Rect.bl_offset.x < c1LocalPoint.x ∧
      c1LocalPoint.x < c1Rect.bl_offset.x + c1Rect.size.x ∧
      c1Rect.bl_offset.y < c1LocalPoint.y ∧
      c1LocalPoint.y < c1Rect.bl_offset.y + c1Rect.size.y) ∧
    ¬ c1Rect.collide_point c1WorldPoint := by
  refine ⟨?_, ?_, ?_⟩
  · show (3 / 5 : ℝ) ^ 2 + (4 / 5 : ℝ) ^ 2 = 1
    norm_num
  · refine ⟨?_, ?_, ?_, ?_⟩ <;> norm_num [c1Rect, c1LocalPoint]
  · intro h
    have hx := h.1
    simp only [c1Rect, c1WorldPoint, c1LocalPoint, Rectangle.collide_point,
      Rectangle.get_aligned_bl, Rectangle.get_local_tr, Rectangle.get_aligned_tr,
      Vec.rot, Vec.add_def, Vec.sub_def, Vec.in_bbox] at hx
    norm_num at hx

/-- C2: the corner and edge queries and the collision tests built on them
only read the rectangle's stored fields: in state-passing form each call
returns the receiver's state unchanged, and repeating a corner query on the
resulting state returns the same value. -/
theorem c2_derived_queries_leave_fields_unchanged (r rect : Rectangle)
    (p v1 v2 : Vec) :
    (r.get_blM.2 = r ∧ r.get_vertexesM.2 = r ∧ r.get_sidesM.2 = r ∧
      (r.collide_pointM p).2 = r ∧ (r.collide_line_segmentM v1 v2).2 = r ∧
      (r.collide_rectangleM rect).2 = r) ∧
    (r.get_blM.2.get_blM.1 = r.get_blM.1 ∧
      r.get_vertexesM.2.get_vertexesM.1 = r.get_vertexesM.1 ∧
      r.get_sidesM.2.get_sidesM.1 = r.get_sidesM.1) :=
  ⟨⟨rfl, rfl, rfl, rfl, rfl, rfl⟩, rfl, rfl, rfl⟩

theorem sqrt_of_sq (b a : ℝ) (hb : 0 ≤ b) (h : b ^ 2 = a) :
    Real.sqrt a = b := by
  rw [← h, Real.sqrt_sq hb]

theorem collide_point_iff (c : Circle) (hr : 0 ≤ c.r) (x y : ℝ) :
    c.collide_point ⟨x, y⟩ ↔ (y - c.pos.y) ^ 2 ≤ c.ddisc x := by
  unfold Circle.collide_point Vec.distance Circle.ddisc
  rw [Real.sqrt_le_left hr]
  constructor <;> intro h <;> nlinarith [h]

theorem get_y_at_pos (c : Circle) (x : ℝ) (h : 0 ≤ c.ddisc x) :
    c.get_y_at x =
      (true, c.pos.y + Real.sqrt (c.ddisc x),
        c.pos.y - Real.sqrt (c.ddisc x)) := by
  simp only [Circle.get_y_at, Circle.solve_quadratic]
  rw [show (-2 * c.pos.y) ^ 2 - 4 * 1 * (c.pos.y ^ 2 + (x - c.pos.x) ^ 2 - c.r ^ 2)
        = 2 ^ 2 * c.ddisc x by unfold Circle.ddisc; ring]
  rw [if_neg (not_lt.2 (by positivity))]
  rw [Real.sqrt_mul (by norm_num) _, Real.sqrt_sq (by norm_num : (0:ℝ) ≤ 2)]
  refine Prod.ext rfl (Prod.ext ?_ ?_) <;> simp <;> ring

theorem param_in_unit_iff (b t s : ℝ) (h : b < t) :
    (0 ≤ (s - b) / (t - b) ∧ (s - b) / (t - b) ≤ 1) ↔ (b ≤ s ∧ s ≤ t) := by
  have hp : 0 < t - b := by linarith
  rw [le_div_iff hp, div_le_one hp, zero_mul]
  constructor <;> rintro ⟨h1, h2⟩ <;> constructor <;> linarith

theorem vertical_seg_iff (c : Circle) (x b t : ℝ) (hbt : b < t)
    (hb : ¬ c.collide_point ⟨x, b⟩) (ht : ¬ c.collide_point ⟨x, t⟩) :
    c.collide_line_segment ⟨x, b⟩ ⟨x, t⟩ ↔
      0 ≤ c.ddisc x ∧
        ((b ≤ c.pos.y + Real.sqrt (c.ddisc x) ∧
            c.pos.y + Real.sqrt (c.ddisc x) ≤ t) ∨
          (b ≤ c.pos.y - Real.sqrt (c.ddisc x) ∧
            c.pos.y - Real.sqrt (c.ddisc x) ≤ t)) := by
  have hp : (0:ℝ) < t - b := by linarith
  simp only [Circle.collide_line_segment, hb, ht, false_or]
  simp only [Vec.sub_def, Vec.dot]
  rw [show (x - x) * (x - x) + (t - b) * (t - b) = (t - b) ^ 2 by ring]
  rw [show 2 * ((x - x) * (x - c.pos.x) + (t - b) * (b - c.pos.y))
        = 2 * (t - b) * (b - c.pos.y) by ring]
  rw [show x * x + b * b + (c.pos.x * c.pos.x + c.pos.y * c.pos.y) -
        2 * (x * c.pos.x + b * c.pos.y) - c.r ^ 2
        = (b - c.pos.y) ^ 2 - c.ddisc x by unfold Circle.ddisc; ring]
  rcases lt_or_le (c.ddisc x) 0 with hdd | hdd
  · simp only [Circle.solve_quadratic]
    rw [show (2 * (t - b) * (b - c.pos.y)) ^ 2 -
          4 * (t - b) ^ 2 * ((b - c.pos.y) ^ 2 - c.ddisc x)
          = (2 * (t - b)) ^ 2 * c.ddisc x by ring]
    rw [if_pos (mul_neg_of_pos_of_neg (by positivity) hdd)]
    simp [not_le.2 hdd]
  · simp only [Circle.solve_quadratic]
    rw [show (2 * (t - b) * (b - c.pos.y)) ^ 2 -
          4 * (t - b) ^ 2 * ((b - c.pos.y) ^ 2 - c.ddisc x)
          = (2 * (t - b)) ^ 2 * c.ddisc x by ring]
    rw [if_neg (not_lt.2 (by positivity))]
    rw [Real.sqrt_mul (by positivity) _,
      Real.sqrt_sq (by linarith : (0:ℝ) ≤ 2 * (t - b))]
    rw [show (-(2 * (t - b) * (b - c.pos.y)) +
          2 * (t - b) * Real.sqrt (c.ddisc x)) / (2 * (t - b) ^ 2)
          = ((c.pos.y + Real.sqrt (c.ddisc x)) - b) / (t - b) by
        rw [div_eq_div_iff (by positivity) (ne_of_gt hp)]; ring]
    rw [show (-(2 * (t - b) * (b - c.pos.y)) -
          2 * (t - b) * Real.sqrt (c.ddisc x)) / (2 * (t - b) ^ 2)
          = ((c.pos.y - Real.sqrt (c.ddisc x)) - b) / (t - b) by
        rw [div_eq_div_iff (by positivity) (ne_of_gt hp)]; ring]
    rw [param_in_unit_iff _ _ _ hbt, param_in_unit_iff _ _ _ hbt]
    simp [hdd]

theorem processPair_spec (c : Circle) (x b t : ℝ) (hr : 0 ≤ c.r)
    (hnt : c.ddisc x ≠ 0) (hbt : b < t) :
    (Terrain.processPair c x (b, t)).Pairwise (· < ·) ∧
      (∀ y ∈ Terrain.processPair c x (b, t), b ≤ y ∧ y ≤ t) ∧
      Even (Terrain.processPair c x (b, t)).length := by
  unfold Terrain.processPair
  dsimp only
  by_cases hseg : c.collide_line_segment ⟨x, b⟩ ⟨x, t⟩
  case neg =>
    rw [if_pos hseg]
    refine ⟨by simp [List.pairwise_cons, hbt], ?_, ⟨1, rfl⟩⟩
    intro y hy
    rcases List.mem_cons.mp hy with rfl | hy
    · exact ⟨le_refl _, hbt.le⟩
    · rcases List.mem_singleton.mp hy with rfl
      exact ⟨hbt.le, le_refl _⟩
  case pos =>
    rw [if_neg (not_not_intro hseg)]
    by_cases hcb : c.collide_point ⟨x, b⟩ <;>
      by_cases hct : c.collide_point ⟨x, t⟩
    · -- both endpoints inside: the segment is deleted
      rw [if_pos ⟨hcb, hct⟩]
      simp
    · -- only the bottom endpoint inside: it is raised to the upper root
      rw [if_neg (fun h => hct h.2), if_pos hcb]
      have hb2 := (collide_point_iff c hr x b).mp hcb
      have hdd : 0 ≤ c.ddisc x := le_trans (sq_nonneg _) hb2
      have hbrange := (Real.sq_le hdd).mp hb2
      have ht2 : ¬ (t - c.pos.y) ^ 2 ≤ c.ddisc x :=
        fun h => hct ((collide_point_iff c hr x t).mpr h)
      have hS1t : c.pos.y + Real.sqrt (c.ddisc x) < t := by
        by_contra hcon
        push_neg at hcon
        exact ht2 ((Real.sq_le hdd).mpr
          ⟨by linarith [hbrange.1], by linarith⟩)
      rw [get_y_at_pos c x hdd]
      dsimp only
      refine ⟨by simp [List.pairwise_cons, hS1t], ?_, ⟨1, rfl⟩⟩
      intro y hy
      rcases List.mem_cons.mp hy with rfl | hy
      · exact ⟨by linarith [hbrange.2], hS1t.le⟩
      · rcases List.mem_singleton.mp hy with rfl
        exact ⟨hbt.le, le_refl _⟩
    · -- only the top endpoint inside: it is lowered to the lower root
      rw [if_neg (fun h => hcb h.1), if_neg hcb, if_pos hct]
      have ht2 := (collide_point_iff c hr x t).mp hct
      have hdd : 0 ≤ c.ddisc x := le_trans (sq_nonneg _) ht2
      have htrange := (Real.sq_le hdd).mp ht2
      have hb2 : ¬ (b - c.pos.y) ^ 2 ≤ c.ddisc x :=
        fun h => hcb ((collide_point_iff c hr x b).mpr h)
      have hbS2 : b < c.pos.y - Real.sqrt (c.ddisc x) := by
        by_contra hcon
        push_neg at hcon
        exact hb2 ((Real.sq_le hdd).mpr
          ⟨by linarith, by linarith [htrange.2]⟩)
      rw [get_y_at_pos c x hdd]
      dsimp only
      refine ⟨by simp [List.pairwise_cons, hbS2], ?_, ⟨1, rfl⟩⟩
      intro y hy
      rcases List.mem_cons.mp hy with rfl | hy
      · exact ⟨le_refl _, hbt.le⟩
      · rcases List.mem_singleton.mp hy with rfl
        exact ⟨hbS2.le, by linarith [htrange.1]⟩
    · -- neither endpoint inside but the segment collides: split
      rw [if_neg (fun h => hcb h.1), if_neg hcb, if_neg hct]
      obtain ⟨hdd, hroots⟩ := (vertical_seg_iff c x b t hbt hcb hct).mp hseg
      have hddpos : 0 < c.ddisc x := lt_of_le_of_ne hdd (Ne.symm hnt)
      have hsq : 0 < Real.sqrt (c.ddisc x) := Real.sqrt_pos.mpr hddpos
      have hb2 : ¬ (b - c.pos.y) ^ 2 ≤ c.ddisc x :=
        fun h => hcb ((collide_point_iff c hr x b).mpr h)
      have ht2 : ¬ (t - c.pos.y) ^ 2 ≤ c.ddisc x :=
        fun h => hct ((collide_point_iff c hr x t).mpr h)
      have hbout : b < c.pos.y - Real.sqrt (c.ddisc x) ∨
          c.pos.y + Real.sqrt (c.ddisc x) < b := by
        by_contra hcon
        push_neg at hcon
        exact hb2 ((Real.sq_le hdd).mpr
          ⟨by linarith [hcon.1], by linarith [hcon.2]⟩)
      have htout : t < c.pos.y - Real.sqrt (c.ddisc x) ∨
          c.pos.y + Real.sqrt (c.ddisc x) < t := by
        by_contra hcon
        push_neg at hcon
        exact ht2 ((Real.sq_le hdd).mpr
          ⟨by linarith [hcon.1], by linarith [hcon.2]⟩)
      have hbS2 : b < c.pos.y - Real.sqrt (c.ddisc x) := by
        rcases hbout with h | h
        · exact h
        · exfalso
          rcases hroots with ⟨h1, h2⟩ | ⟨h1, h2⟩ <;> linarith
      have hS1t : c.pos.y + Real.sqrt (c.ddisc x) < t := by
        rcases htout with h | h
        · exfalso
          rcases hroots with ⟨h1, h2⟩ | ⟨h1, h2⟩ <;> linarith
        · exact h
      rw [get_y_at_pos c x hdd]
      dsimp only
      refine ⟨?_, ?_, ⟨2, rfl⟩⟩
      · refine List.Pairwise.cons ?_ (List.Pairwise.cons ?_
          (List.Pairwise.cons ?_ (List.pairwise_singleton _ _)))
        · intro y hy
          rcases List.mem_cons.mp hy with rfl | hy
          · linarith
          rcases List.mem_cons.mp hy with rfl | hy
          · linarith
          rcases List.mem_singleton.mp hy with rfl
          linarith
        · intro y hy
          rcases List.mem_cons.mp hy with rfl | hy
          · linarith
          rcases List.mem_singleton.mp hy with rfl
          linarith
        · intro y hy
          rcases List.mem_singleton.mp hy with rfl
          linarith
      · intro y hy
        rcases List.mem_cons.mp hy with rfl | hy
        · exact ⟨le_refl _, hbt.le⟩
        rcases List.mem_cons.mp hy with rfl | hy
        · exact ⟨hbS2.le, by linarith⟩
        rcases List.mem_cons.mp hy with rfl | hy
        · exact ⟨by linarith, hS1t.le⟩
        rcases List.mem_singleton.mp hy with rfl
        exact ⟨hbt.le, le_refl _⟩

theorem twoStepInduction {motive : List ℝ → Prop} (h0 : motive [])
    (h1 : ∀ a, motive [a])
    (h2 : ∀ a b l, motive l → motive (a :: b :: l)) : ∀ l, motive l
  | [] => h0
  | [a] => h1 a
  | a :: b :: l => h2 a b l (twoStepInduction h0 h1 h2 l)

theorem excavate_column_spec (c : Circle) (x : ℝ) (hr : 0 ≤ c.r)
    (hnt : c.ddisc x ≠ 0) :
    ∀ col : List ℝ, Even col.length → col.Pairwise (· < ·) →
      (Terrain.excavate_column c x col).Pairwise (· < ·) ∧
        Even (Terrain.excavate_column c x col).length ∧
        ∀ y ∈ Terrain.excavate_column c x col, ∃ z ∈ col, z ≤ y := by
  refine twoStepInduction ?_ ?_ ?_
  · intro _ _
    simp [Terrain.excavate_column]
  · intro a hev _
    simp [Nat.even_iff] at hev
  · intro b t rest ih hev hsort
    have hrest_ev : Even rest.length := by
      simp [Nat.even_iff] at hev ⊢
      omega
    obtain ⟨hb_all, hsort2⟩ := List.pairwise_cons.mp hsort
    obtain ⟨ht_all, hsort_rest⟩ := List.pairwise_cons.mp hsort2
    have hb_t : b < t := hb_all t (by simp)
    obtain ⟨ih1, ih2, ih3⟩ := ih hrest_ev hsort_rest
    obtain ⟨pp1, pp2, pp3⟩ := processPair_spec c x b t hr hnt hb_t
    have heq : Terrain.excavate_column c x (b :: t :: rest)
        = Terrain.processPair c x (b, t) ++ Terrain.excavate_column c x rest :=
      rfl
    rw [heq]
    refine ⟨?_, ?_, ?_⟩
    · rw [List.pairwise_append]
      refine ⟨pp1, ih1, ?_⟩
      intro u hu v hv
      obtain ⟨z, hz, hzv⟩ := ih3 v hv
      have hu2 := (pp2 u hu).2
      have hz2 := ht_all z hz
      linarith
    · rw [List.length_append]
      exact Nat.even_add.mpr (iff_of_true pp3 ih2)
    · intro y hy
      rcases List.mem_append.mp hy with hy | hy
      · exact ⟨b, by simp, (pp2 y hy).1⟩
      · obtain ⟨z, hz, hzy⟩ := ih3 y hy
        exact ⟨z, by simp [hz], hzy⟩

theorem explodeGo_get? (c : Circle) (lo hi : ℤ) :
    ∀ (parts : List (List ℝ)) (start k : ℕ),
      (Terrain.explodeGo c lo hi start parts).get? k =
        (parts.get? k).map (fun col =>
          if lo ≤ ((start + k : ℕ) : ℤ) ∧ ((start + k : ℕ) : ℤ) < hi then
            Terrain.excavate_column c ((start + k : ℕ) : ℝ) col
          else col) := by
  intro parts
  induction parts with
  | nil =>
      intro start k
      simp [Terrain.explodeGo]
  | cons col rest ih =>
      intro start k
      cases k with
      | zero =>
          simp [Terrain.explodeGo]
      | succ k =>
          have harith : start + (k + 1) = start + 1 + k := by omega
          simp only [Terrain.explodeGo, List.get?_cons_succ, harith]
          exact ih (start + 1) k

/-- C3 (amended): explode preserves even length and strict monotonicity of
every terrain column, provided the circle has nonnegative radius (as the
data model requires) and is not exactly tangent to any integer column line
of the terrain.  The original claim, quantified over every circle, fails at
tangency: the split branch inserts the two equal roots of a tangent column,
producing a repeated value (see the counterexample). -/
theorem c3_explode_preserves_sorted_columns (c : Circle)
    (ts : List (List ℝ)) (hr : 0 ≤ c.r)
    (hnt : ∀ i : ℕ, i < ts.length → c.ddisc (i : ℝ) ≠ 0)
    (hts : ∀ col ∈ ts, Even col.length ∧ col.Pairwise (· < ·)) :
    ∀ col ∈ Terrain.explode c ts, Even col.length ∧ col.Pairwise (· < ·) := by
  intro col hcol
  obtain ⟨k, hk⟩ := List.mem_iff_get?.mp hcol
  simp only [Terrain.explode] at hk
  rw [explodeGo_get?] at hk
  cases hpk : ts.get? k with
  | none =>
      rw [hpk] at hk
      simp at hk
  | some col0 =>
      rw [hpk] at hk
      simp only [Option.map_some', Option.some.injEq, Nat.zero_add] at hk
      have hkl : k < ts.length := by
        by_contra hcon
        rw [List.get?_eq_none.mpr (by omega)] at hpk
        cases hpk
      have hmem : col0 ∈ ts := List.get?_mem hpk
      obtain ⟨hev, hsort⟩ := hts col0 hmem
      split_ifs at hk with hc
      · obtain ⟨s1, s2, s3⟩ :=
          excavate_column_spec c (k : ℝ) hr (hnt k hkl) col0 hev hsort
        rw [← hk]
        exact ⟨s2, s1⟩
      · rw [← hk]
        exact ⟨hev, hsort⟩

theorem explode_singleton (c : Circle) (col : List ℝ)
    (h1 : max ⌊c.pos.x - c.r⌋ 0 ≤ 0)
    (h2 : (0 : ℤ) < min (⌈c.pos.x + c.r⌉ + 1) 1) :
    Terrain.explode c [col] = [Terrain.excavate_column c 0 col] := by
  simp only [Terrain.explode, Terrain.explodeGo, List.length_singleton,
    Nat.cast_zero, Nat.cast_one, Nat.cast_ofNat]
  rw [if_pos ⟨h1, h2⟩]

/-- Evaluation of the tangent-circle excavation used by the C3
counterexample: the circle at (10, 50) with radius 10 is tangent to column
0, and the split branch inserts the doubled root 50. -/
theorem c3cex_eval :
    Terrain.explode ⟨⟨10, 50⟩, 10⟩ [[0, 100]] = [[0, 50, 50, 100]] := by
  have hc : (⟨⟨10, 50⟩, 10⟩ : Circle).ddisc 0 = 0 := by
    norm_num [Circle.ddisc]
  have hsq : Real.sqrt ((⟨⟨10, 50⟩, 10⟩ : Circle).ddisc 0) = 0 := by
    rw [hc, Real.sqrt_zero]
  have hcb : ¬ (⟨⟨10, 50⟩, 10⟩ : Circle).collide_point ⟨0, 0⟩ := by
    rw [collide_point_iff _ (by norm_num) _ _, hc]
    norm_num
  have hct : ¬ (⟨⟨10, 50⟩, 10⟩ : Circle).collide_point ⟨0, 100⟩ := by
    rw [collide_point_iff _ (by norm_num) _ _, hc]
    norm_num
  have hseg : (⟨⟨10, 50⟩, 10⟩ : Circle).collide_line_segment ⟨0, 0⟩ ⟨0, 100⟩ := by
    rw [vertical_seg_iff _ _ _ _ (by norm_num) hcb hct, hsq, hc]
    norm_num
  rw [explode_singleton _ _ (by norm_num) (by norm_num)]
  have heval : Terrain.excavate_column (⟨⟨10, 50⟩, 10⟩ : Circle) 0 [0, 100]
      = Terrain.processPair ⟨⟨10, 50⟩, 10⟩ 0 (0, 100) ++ [] := rfl
  rw [heval, List.append_nil]
  unfold Terrain.processPair
  rw [if_neg (not_not_intro hseg), if_neg (fun h => hcb h.1), if_neg hcb,
    if_neg hct, get_y_at_pos _ _ hc.ge]
  rw [hsq]
  norm_num

/-- C3 (counterexample): the terrain with the single column [0, 100]
satisfies the even/strictly-increasing precondition, but exploding the
circle at (10, 50) with radius 10, which is tangent to column 0, leaves a
column that is not strictly increasing (the root 50 is inserted twice). -/
theorem c3_counterexample_tangent_circle :
    (∀ col ∈ ([[0, 100]] : List (List ℝ)),
        Even col.length ∧ col.Pairwise (· < ·)) ∧
      (0 : ℝ) ≤ (⟨⟨10, 50⟩, 10⟩ : Circle).r ∧
      ¬ (∀ col ∈ Terrain.explode ⟨⟨10, 50⟩, 10⟩ [[0, 100]],
          col.Pairwise (· < ·)) := by
  refine ⟨?_, by norm_num, ?_⟩
  · intro col hcol
    rcases List.mem_singleton.mp hcol with rfl
    exact ⟨⟨1, rfl⟩, by norm_num [List.pairwise_cons]⟩
  · intro hall
    have hmem : ([0, 50, 50, 100] : List ℝ)
        ∈ Terrain.explode ⟨⟨10, 50⟩, 10⟩ [[0, 100]] := by
      rw [c3cex_eval]
      simp
    have := hall _ hmem
    rw [List.pairwise_cons] at this
    obtain ⟨_, this⟩ := this
    rw [List.pairwise_cons] at this
    exact absurd (this.1 50 (by simp)) (lt_irrefl 50)

/-- Witness for the amended C3 theorem at a concrete input: the circle at
(0, 50) with radius 10 over the single column [0, 100]. -/
theorem c3_witness :
    (0 : ℝ) ≤ (⟨⟨0, 50⟩, 10⟩ : Circle).r ∧
      (∀ i : ℕ, i < ([[0, 100]] : List (List ℝ)).length →
        (⟨⟨0, 50⟩, 10⟩ : Circle).ddisc (i : ℝ) ≠ 0) ∧
      (∀ col ∈ ([[0, 100]] : List (List ℝ)),
        Even col.length ∧ col.Pairwise (· < ·)) ∧
      ∀ col ∈ Terrain.explode ⟨⟨0, 50⟩, 10⟩ [[0, 100]],
        Even col.length ∧ col.Pairwise (· < ·) := by
  have hr : (0 : ℝ) ≤ (⟨⟨0, 50⟩, 10⟩ : Circle).r := by norm_num
  have hnt : ∀ i : ℕ, i < ([[0, 100]] : List (List ℝ)).length →
      (⟨⟨0, 50⟩, 10⟩ : Circle).ddisc (i : ℝ) ≠ 0 := by
    intro i hi
    have hi0 : i = 0 := by simpa using Nat.lt_one_iff.mp (by simpa using hi)
    subst hi0
    norm_num [Circle.ddisc]
  have hts : ∀ col ∈ ([[0, 100]] : List (List ℝ)),
      Even col.length ∧ col.Pairwise (· < ·) := by
    intro col hcol
    rcases List.mem_singleton.mp hcol with rfl
    exact ⟨⟨1, rfl⟩, by norm_num [List.pairwise_cons]⟩
  exact ⟨hr, hnt, hts,
    c3_explode_preserves_sorted_columns _ _ hr hnt hts⟩

/-- C4: excavating a column holding the single interval [0, 100] with the
circle centered at (x, 50) of radius 10 (x the column's integer
coordinate) splits it into [0, 40] and [60, 100]: the transition list
becomes [0, 40, 60, 100]. -/
theorem c4_mid_interval_split (ts : List (List ℝ)) (k : ℕ)
    (hcol : ts.get? k = some [0, 100]) :
    (Terrain.explode ⟨⟨(k : ℝ), 50⟩, 10⟩ ts).get? k
      = some [0, 40, 60, 100] := by
  have hkl : k < ts.length := by
    by_contra h
    rw [List.get?_eq_none.mpr (by omega)] at hcol
    cases hcol
  have hdd : (⟨⟨(k : ℝ), 50⟩, 10⟩ : Circle).ddisc (k : ℝ) = 100 := by
    norm_num [Circle.ddisc]
  have hsq : Real.sqrt ((⟨⟨(k : ℝ), 50⟩, 10⟩ : Circle).ddisc (k : ℝ)) = 10 := by
    rw [hdd]
    exact sqrt_of_sq 10 100 (by norm_num) (by norm_num)
  have hcb : ¬ (⟨⟨(k : ℝ), 50⟩, 10⟩ : Circle).collide_point ⟨(k : ℝ), 0⟩ := by
    rw [collide_point_iff _ (by norm_num) _ _, hdd]
    norm_num
  have hct : ¬ (⟨⟨(k : ℝ), 50⟩, 10⟩ : Circle).collide_point ⟨(k : ℝ), 100⟩ := by
    rw [collide_point_iff _ (by norm_num) _ _, hdd]
    norm_num
  have hseg : (⟨⟨(k : ℝ), 50⟩, 10⟩ : Circle).collide_line_segment
      ⟨(k : ℝ), 0⟩ ⟨(k : ℝ), 100⟩ := by
    rw [vertical_seg_iff _ _ _ _ (by norm_num) hcb hct, hsq, hdd]
    norm_num
  simp only [Terrain.explode, Circle.get_bbox]
  rw [explodeGo_get?, hcol]
  simp only [Option.map_some', Nat.zero_add]
  have hfl : ⌊(k : ℝ) - 10⌋ = (k : ℤ) - 10 := by
    rw [show ((10 : ℝ)) = ((10 : ℤ) : ℝ) by norm_num, Int.floor_sub_int,
      Int.floor_natCast]
  have hcl : ⌈(k : ℝ) + 10⌉ = (k : ℤ) + 10 := by
    rw [show ((10 : ℝ)) = ((10 : ℤ) : ℝ) by norm_num, Int.ceil_add_int,
      Int.ceil_natCast]
  have hklz : (k : ℤ) < (ts.length : ℤ) := by exact_mod_cast hkl
  rw [if_pos (by simp only [hfl, hcl]; omega)]
  have heval : Terrain.excavate_column (⟨⟨(k : ℝ), 50⟩, 10⟩ : Circle)
      (k : ℝ) [0, 100]
      = Terrain.processPair ⟨⟨(k : ℝ), 50⟩, 10⟩ (k : ℝ) (0, 100) ++ [] := rfl
  rw [heval, List.append_nil]
  unfold Terrain.processPair
  rw [if_neg (not_not_intro hseg), if_neg (fun h => hcb h.1), if_neg hcb,
    if_neg hct, get_y_at_pos _ _ (by rw [hdd]; norm_num)]
  rw [hsq]
  norm_num

/-- Witness for C4 at the concrete single-column terrain. -/
theorem c4_witness :
    (([[0, 100]] : List (List ℝ)).get? 0 = some [0, 100]) ∧
      (Terrain.explode ⟨⟨((0 : ℕ) : ℝ), 50⟩, 10⟩ [[0, 100]]).get? 0
        = some [0, 40, 60, 100] :=
  ⟨rfl, c4_mid_interval_split [[0, 100]] 0 rfl⟩

/-- Evaluation shared by the C5 counterexample and its amended theorem:
the circle at (x, 5) of radius 20 contains only the bottom endpoint of the
interval [0, 100], so the bottom is raised to the upper root 25. -/
theorem c5_eval :
    Terrain.explode ⟨⟨0, 5⟩, 20⟩ [[0, 100]] = [[25, 100]] := by
  have hdd : (⟨⟨0, 5⟩, 20⟩ : Circle).ddisc 0 = 400 := by
    norm_num [Circle.ddisc]
  have hsq : Real.sqrt ((⟨⟨0, 5⟩, 20⟩ : Circle).ddisc 0) = 20 := by
    rw [hdd]
    exact sqrt_of_sq 20 400 (by norm_num) (by norm_num)
  have hcb : (⟨⟨0, 5⟩, 20⟩ : Circle).collide_point ⟨0, 0⟩ := by
    rw [collide_point_iff _ (by norm_num) _ _, hdd]
    norm_num
  have hct : ¬ (⟨⟨0, 5⟩, 20⟩ : Circle).collide_point ⟨0, 100⟩ := by
    rw [collide_point_iff _ (by norm_num) _ _, hdd]
    norm_num
  have hseg : (⟨⟨0, 5⟩, 20⟩ : Circle).collide_line_segment ⟨0, 0⟩ ⟨0, 100⟩ :=
    Or.inl hcb
  rw [explode_singleton _ _ (by norm_num) (by norm_num)]
  have heval : Terrain.excavate_column (⟨⟨0, 5⟩, 20⟩ : Circle) 0 [0, 100]
      = Terrain.processPair ⟨⟨0, 5⟩, 20⟩ 0 (0, 100) ++ [] := rfl
  rw [heval, List.append_nil]
  unfold Terrain.processPair
  rw [if_neg (not_not_intro hseg), if_neg (fun h => hct h.2), if_pos hcb,
    get_y_at_pos _ _ (by rw [hdd]; norm_num)]
  rw [hsq]
  norm_num

/-- C5 (counterexample): the claim says the circle at (x, 5) of radius 20
deletes the interval [0, 100] entirely; in fact that circle only reaches
up to y = 25, the top endpoint (x, 100) is far outside it, and the code
takes the raise-the-bottom branch, leaving [25, 100] rather than an empty
column. -/
theorem c5_counterexample_interval_not_deleted :
    Terrain.explode ⟨⟨0, 5⟩, 20⟩ [[0, 100]] ≠ [([] : List ℝ)] := by
  rw [c5_eval]
  simp

/-- C5 (amended): excavating the column [0, 100] with the circle at (x, 5)
of radius 20 raises the interval's bottom to 25 (the circle's upper root),
leaving the single interval [25, 100]. -/
theorem c5_amended_bottom_raised :
    Terrain.explode ⟨⟨0, 5⟩, 20⟩ [[0, 100]] = [[25, 100]] := c5_eval

theorem clamp_mem (v lo hi : ℝ) (h : lo ≤ hi) :
    lo ≤ clamp v lo hi ∧ clamp v lo hi ≤ hi := by
  unfold clamp
  exact ⟨le_max_right _ _, max_le (min_le_right _ _) h⟩

/-- C6: when the shell rectangle's bounding box dips below y = 0,
terrain_collision reports a hit immediately: the terrain's intervals are
neither tested nor excavated, for every terrain state. -/
theorem c6_floor_hit_leaves_terrain_unchanged (sh : Shell)
    (parts : List (List ℝ))
    (h : sh.get_rectangle.get_bbox.2.1 < 0) :
    Map.terrain_collision sh parts = (true, parts) := by
  simp only [Map.terrain_collision]
  rw [if_pos h]

/-- Witness for C6 at a concrete shell and terrain. -/
theorem c6_witness :
    c6Shell.get_rectangle.get_bbox.2.1 < 0 ∧
      Map.terrain_collision c6Shell [[0, 5]] = (true, [[0, 5]]) := by
  have h : c6Shell.get_rectangle.get_bbox.2.1 < 0 := by
    norm_num [c6Shell, Shell.get_rectangle, Shell.dir, Shell.center_x,
      Shell.center_y, Rectangle.get_bbox, Rectangle.get_bl, Rectangle.get_br,
      Rectangle.get_tl, Rectangle.get_tr, Rectangle.get_local_bl,
      Rectangle.get_local_br, Rectangle.get_local_tl, Rectangle.get_local_tr,
      Rectangle.get_aligned_bl, Rectangle.get_aligned_br,
      Rectangle.get_aligned_tl, Rectangle.get_aligned_tr, Vec.rot,
      Vec.add_def, Vec.length]
  exact ⟨h, c6_floor_hit_leaves_terrain_unchanged c6Shell [[0, 5]] h⟩

/-- C8 (amended): for a shell with left edge at x = -1 and vx = -50 in a
field of width 800, one update call inverts the horizontal velocity to
exactly +50 provided the drag does not alter vx this tick (zero drag
coefficient), and clamps x back into [0, 800].  The original claim, with
the default drag coefficient, is off by the drag decrement (see the
counterexample). -/
theorem c8_wall_bounce_inverts_velocity (sh : Shell) (dt ph : ℝ)
    (hx : sh.x = -1) (hv : sh.vx = -50) (hd : sh.drag_coef = 0)
    (hdt : 0 ≤ dt) :
    (sh.update dt 800 ph).vx = 50 ∧
      0 ≤ (sh.update dt 800 ph).x ∧ (sh.update dt 800 ph).x ≤ 800 := by
  have hcond : sh.x + sh.vx * dt < 0 ∨ sh.x + sh.vx * dt + sh.w > 800 :=
    Or.inl (by rw [hx, hv]; nlinarith)
  simp only [Shell.update]
  rw [if_pos hcond, if_pos hcond]
  refine ⟨?_, ?_, ?_⟩
  · show -(sh.vx - (Vec.div (Vec.smul _ (sh.drag_coef * _)) sh.mass).x) = 50
    rw [hv, hd]
    simp [Vec.smul, Vec.div]
  · exact (clamp_mem _ _ _ (by norm_num)).1
  · exact (clamp_mem _ _ _ (by norm_num)).2

/-- Witness for the amended C8 theorem at a concrete shell. -/
theorem c8_witness :
    c8Shell.x = -1 ∧ c8Shell.vx = -50 ∧ c8Shell.drag_coef = 0 ∧
      (0 : ℝ) ≤ 1 ∧
      ((c8Shell.update 1 800 600).vx = 50 ∧
        0 ≤ (c8Shell.update 1 800 600).x ∧
        (c8Shell.update 1 800 600).x ≤ 800) :=
  ⟨rfl, rfl, rfl, by norm_num,
    c8_wall_bounce_inverts_velocity c8Shell 1 600 rfl rfl rfl (by norm_num)⟩

/-- C8 (counterexample): with the default drag coefficient 0.0025 the
claim fails: the shell at x = -1 with vx = -50 ends the update with
vx = 49.9375, not exactly +50, because the bounce negates the velocity
after the drag decrement. -/
theorem c8_counterexample_drag_spoils_exact_bounce :
    c8cShell.x = -1 ∧ c8cShell.vx = -50 ∧
      (c8cShell.update 1 800 600).vx ≠ 50 := by
  refine ⟨rfl, rfl, ?_⟩
  have hsq : Real.sqrt 2500 = 50 := sqrt_of_sq 50 2500 (by norm_num) (by norm_num)
  norm_num [Shell.update, c8cShell, Vec.normalize, Vec.length, Vec.length2,
    Vec.smul, Vec.div, clamp, hsq]

theorem get?_eraseIdx_of_lt {α : Type} :
    ∀ (l : List α) (i j : ℕ), j < i → (l.eraseIdx i).get? j = l.get? j
  | [], _, _, _ => by simp
  | _ :: _, 0, j, h => absurd h (Nat.not_lt_zero j)
  | _ :: _, i + 1, 0, _ => rfl
  | _ :: l, i + 1, j + 1, h =>
      get?_eraseIdx_of_lt l i j (Nat.lt_of_succ_lt_succ h)

theorem get?_eraseIdx_of_ge {α : Type} :
    ∀ (l : List α) (i j : ℕ), i ≤ j → (l.eraseIdx i).get? j = l.get? (j + 1)
  | [], _, _, _ => by simp
  | _ :: _, 0, _, _ => rfl
  | _ :: _, i + 1, 0, h => absurd h (by omega)
  | _ :: l, i + 1, j + 1, h =>
      get?_eraseIdx_of_ge l i j (Nat.le_of_succ_le_succ h)

theorem findIdx_id_spec :
    ∀ (ps : List Player) (pid : ℕ), (∃ q ∈ ps, q.id = pid) →
      ∃ q, ps.get? (ps.findIdx (fun q => q.id == pid)) = some q ∧
        q.id = pid := by
  intro ps
  induction ps with
  | nil => simp
  | cons a l ih =>
      intro pid hex
      by_cases ha : a.id = pid
      · refine ⟨a, ?_, ha⟩
        rw [List.findIdx_cons]
        simp [ha]
      · rw [List.findIdx_cons]
        have hcond : (a.id == pid) = false := by
          simp [ha]
        rw [hcond]
        simp only [cond_false]
        obtain ⟨q, hq, hqid⟩ := hex
        rcases List.mem_cons.mp hq with rfl | hq
        · exact absurd hqid ha
        obtain ⟨q, h1, h2⟩ := ih pid ⟨q, hq, hqid⟩
        exact ⟨q, by simpa using h1, h2⟩

/-- C10: for a valid game state with at least two players, removing a
player other than the current one via remove_player leaves get_c_player
unchanged (the index is decremented exactly when the removed roster index
is at or before it); and removing the current player at index 0 makes the
index -1, after which switch_player restores a valid index in
[0, player count). -/
theorem c10_remove_player_keeps_current (s : GameState) (p cur : Player)
    (hlen : 2 ≤ s.players.length)
    (hidx0 : 0 ≤ s.c_player_idx) :
    (p ∈ s.players → s.get_c_player = some cur → p.id ≠ cur.id →
        (s.remove_player p).get_c_player = some cur) ∧
      (s.c_player_idx = 0 → s.get_c_player = some cur →
        (s.remove_player cur).c_player_idx = -1 ∧
          ∀ w : ℝ, 0 ≤ ((s.remove_player cur).switch_player w).c_player_idx ∧
            ((s.remove_player cur).switch_player w).c_player_idx <
              (((s.remove_player cur).switch_player w).players.length : ℤ)) := by
  constructor
  · intro hp hcur hne
    have hcur2 : s.players.get? s.c_player_idx.toNat = some cur := by
      unfold GameState.get_c_player pyIndex at hcur
      rw [if_pos hidx0] at hcur
      exact hcur
    obtain ⟨q, hq, hqid⟩ :=
      findIdx_id_spec s.players p.id ⟨p, hp, rfl⟩
    set i := s.players.findIdx (fun x => x.id == p.id) with hi
    set j := s.c_player_idx.toNat with hj
    have hjz : (j : ℤ) = s.c_player_idx := Int.toNat_of_nonneg hidx0
    have hij : i ≠ j := by
      intro heq
      rw [heq, hcur2] at hq
      exact hne (hqid ▸ congrArg Player.id (Option.some.inj hq).symm ▸ rfl)
    have hilen : i < s.players.length := by
      by_contra hcon
      rw [List.get?_eq_none.mpr (by omega)] at hq
      cases hq
    have hrp : s.remove_player p = { s with
        players := s.players.eraseIdx i,
        c_player_idx := if (i : ℤ) ≤ s.c_player_idx then s.c_player_idx - 1
          else s.c_player_idx } := by
      rw [GameState.remove_player]
    rw [hrp]
    unfold GameState.get_c_player pyIndex
    dsimp only
    rcases le_or_lt (i : ℤ) s.c_player_idx with hle | hgt
    · have hij2 : i < j := by omega
      have hj1 : 1 ≤ j := by omega
      rw [if_pos hle, if_pos (by omega : (0:ℤ) ≤ s.c_player_idx - 1)]
      have htn : (s.c_player_idx - 1).toNat = j - 1 := by omega
      rw [htn, get?_eraseIdx_of_ge _ i (j - 1) (by omega),
        show j - 1 + 1 = j by omega]
      exact hcur2
    · rw [if_neg (not_le.mpr hgt), if_pos hidx0]
      rw [← hj, get?_eraseIdx_of_lt _ i j (by omega)]
      exact hcur2
  · intro hc0 hcur
    have hcur2 : s.players.get? 0 = some cur := by
      unfold GameState.get_c_player pyIndex at hcur
      rw [if_pos hidx0, hc0] at hcur
      exact hcur
    cases hps : s.players with
    | nil =>
        rw [hps] at hcur2
        cases hcur2
    | cons a l =>
        have ha : a = cur := by
          rw [hps] at hcur2
          exact Option.some.inj hcur2
        have hidx_eq :
            s.players.findIdx (fun q => q.id == cur.id) = 0 := by
          rw [hps, List.findIdx_cons, ha]
          simp
        have hrm : s.remove_player cur = { s with
            players := s.players.eraseIdx 0,
            c_player_idx := s.c_player_idx - 1 } := by
          rw [GameState.remove_player, hidx_eq, if_pos (by omega)]
        have hlenl : 1 ≤ l.length := by
          have := hlen
          rw [hps] at this
          simpa using Nat.le_of_succ_le_succ this
        constructor
        · rw [hrm]
          dsimp only
          omega
        · intro w
          rw [hrm]
          unfold GameState.switch_player
          dsimp only
          rw [hps]
          dsimp only [List.eraseIdx]
          rw [hc0]
          norm_num
          omega

/-- Witness for C10 at a concrete three-player state: removing the
non-current player with id 1 keeps the current player (id 0); removing the
current player at index 0 yields index -1, and switch_player then restores
index 0, which is valid. -/
theorem c10_witness :
    ((c10Game.remove_player ⟨1, [], 0, 0⟩).get_c_player
        = some ⟨0, [], 0, 0⟩) ∧
      (c10Game.remove_player ⟨0, [], 0, 0⟩).c_player_idx = -1 ∧
      0 ≤ ((c10Game.remove_player ⟨0, [], 0, 0⟩).switch_player 7).c_player_idx ∧
      ((c10Game.remove_player ⟨0, [], 0, 0⟩).switch_player 7).c_player_idx <
        ((((c10Game.remove_player ⟨0, [], 0, 0⟩).switch_player
          7).players.length : ℤ)) := by
  have h := c10_remove_player_keeps_current c10Game ⟨1, [], 0, 0⟩
    ⟨0, [], 0, 0⟩ (by norm_num [c10Game]) (by norm_num [c10Game])
  refine ⟨h.1 (by simp [c10Game]) rfl (by norm_num), ?_⟩
  have h2 := h.2 rfl rfl
  exact ⟨h2.1, (h2.2 7).1, (h2.2 7).2⟩

theorem Shell.update_player (s : Shell) (dt pw ph : ℝ) :
    (s.update dt pw ph).player = s.player := rfl

theorem Shell.update_init_power (s : Shell) (dt pw ph : ℝ) :
    (s.update dt pw ph).init_power = s.init_power := rfl

theorem Shell.update_init_angle (s : Shell) (dt pw ph : ℝ) :
    (s.update dt pw ph).init_angle = s.init_angle := rfl

theorem Shell.update_wind (s : Shell) (dt pw ph : ℝ) :
    (s.update dt pw ph).wind = s.wind := rfl

theorem foldl_remove_victoryInfo (ps : List Player) :
    ∀ s : GameState,
      (ps.foldl (fun st p => st.remove_player p) s).victoryInfo
        = s.victoryInfo := by
  induction ps with
  | nil => intro s; rfl
  | cons p l ih =>
      intro s
      rw [List.foldl_cons, ih]
      rfl

theorem end_game_victoryInfo (s : GameState) :
    s.end_game.victoryInfo = s.victoryInfo := by
  unfold GameState.end_game
  exact foldl_remove_victoryInfo s.players s

theorem victory_victoryInfo (s : GameState) (pc : ℕ) (p : Player) :
    (s.victory pc p).victoryInfo = some (pc, p.id, p.kills, p.shots) := by
  unfold GameState.victory
  rw [end_game_victoryInfo]

theorem victory_players (s : GameState) (pc : ℕ) (p : Player) :
    (s.victory pc p).players = [] := rfl

theorem switch_player_players (s : GameState) (w : ℝ) :
    (s.switch_player w).players = s.players := rfl

/-- C7: when the in-flight shell's collision resolves, then with more than
one player remaining afterwards a Trace is appended to the firing player's
history exactly when the entity hit is not the firer (terrain hits and
hits on other players record one, a self-hit records none), while every
other player's history is untouched; and when exactly one player remains
the match transitions to victory (the victory screen data is set, the
roster is released) and no trace is appended. -/
theorem c7_trace_recorded_iff_hit_not_firer
    (co : Player → Shell → Bool) (newWind dt : ℝ) (s : GameState)
    (sh : Shell) (tps : List (ℝ × ℝ))
    (hsh : s.shell = some sh) (htr : s.tracer = some tps)
    (hcol : (s.collisionStep co dt sh).1 = true) :
    (1 < (s.collisionStep co dt sh).2.2.players.length →
      (GameState.update co newWind dt s).players.map
          (fun q => (q.id, q.traces))
        = (s.collisionStep co dt sh).2.2.players.map (fun q => (q.id,
            if (∀ p ∈ (s.collisionStep co dt sh).2.1, p.id ≠ sh.player) ∧
                q.id = sh.player then
              (q.add_trace
                ⟨sh.init_power, sh.init_angle, sh.wind, tps⟩).traces
            else q.traces))) ∧
    ((s.collisionStep co dt sh).2.2.players.length = 1 →
      (GameState.update co newWind dt s).victoryInfo
          = some (s.init_player_count,
              (s.collisionStep co dt sh).2.2.players.headI.id,
              (s.collisionStep co dt sh).2.2.players.headI.kills,
              (s.collisionStep co dt sh).2.2.players.headI.shots) ∧
        (GameState.update co newWind dt s).players = []) := by
  have hu : GameState.update co newWind dt s =
      (if (s.collisionStep co dt sh).1 = false then (s.collisionStep co dt sh).2.2
       else if (s.collisionStep co dt sh).2.2.players.length = 1 then
         (s.collisionStep co dt sh).2.2.victory s.init_player_count
           (s.collisionStep co dt sh).2.2.players.headI
       else
         let doTrace : Bool :=
           match (s.collisionStep co dt sh).2.1 with
           | none => true
           | some p => p.id != sh.player
         let s2 :=
           if doTrace then
             { (s.collisionStep co dt sh).2.2 with
               players := (s.collisionStep co dt sh).2.2.players.map (fun q =>
                 if q.id = sh.player then
                   q.add_trace
                     ⟨sh.init_power, sh.init_angle, sh.wind, s.tracer.getD []⟩
                 else q) }
           else (s.collisionStep co dt sh).2.2
         GameState.switch_player { s2 with shell := none, tracer := none }
           newWind) := by
    unfold GameState.update GameState.collisionStep
    rw [hsh]
    exact rfl
  rw [hu]
  simp only [htr, Option.getD_some]
  rw [hcol]
  rw [if_neg (by simp)]
  constructor
  · intro hlen
    rw [if_neg (by omega)]
    rcases hhit : (s.collisionStep co dt sh).2.1 with _ | p
    · dsimp only [GameState.switch_player]
      rw [if_pos rfl]
      dsimp only
      simp only [List.map_map]
      have hfun : ((fun q : Player => (q.id, q.traces)) ∘ (fun q =>
          if q.id = sh.player then
            q.add_trace ⟨sh.init_power, sh.init_angle, sh.wind, tps⟩
          else q))
          = fun q => (q.id,
              if (∀ p ∈ (none : Option Player), p.id ≠ sh.player) ∧
                  q.id = sh.player then
                (q.add_trace
                  ⟨sh.init_power, sh.init_angle, sh.wind, tps⟩).traces
              else q.traces) := by
        funext q
        by_cases hq : q.id = sh.player <;>
          simp [hq, Player.add_trace, Function.comp]
      rw [hfun]
    · dsimp only [GameState.switch_player]
      by_cases hpq : p.id = sh.player
      · rw [if_neg (by simp [hpq] : ¬ ((p.id != sh.player) = true))]
        have hcond : ∀ q : Player,
            ¬ ((∀ x ∈ (some p : Option Player), x.id ≠ sh.player) ∧
              q.id = sh.player) := by
          intro q hq
          exact hq.1 p (by simp) hpq
        apply List.map_congr_left
        intro q _
        rw [if_neg (hcond q)]
      · rw [if_pos (by simp [hpq] : (p.id != sh.player) = true)]
        simp only [List.map_map]
        have hfun : ((fun q : Player => (q.id, q.traces)) ∘ (fun q =>
            if q.id = sh.player then
              q.add_trace ⟨sh.init_power, sh.init_angle, sh.wind, tps⟩
            else q))
            = fun q => (q.id,
                if (∀ x ∈ (some p : Option Player), x.id ≠ sh.player) ∧
                    q.id = sh.player then
                  (q.add_trace
                    ⟨sh.init_power, sh.init_angle, sh.wind, tps⟩).traces
                else q.traces) := by
          funext q
          by_cases hq : q.id = sh.player <;>
            simp [hq, hpq, Player.add_trace, Function.comp]
        rw [hfun]
  · intro hlen1
    rw [if_pos hlen1]
    exact ⟨victory_victoryInfo _ _ _, victory_players _ _ _⟩

/-- Witness for C7 at a concrete three-player game: the shell fired by
player 0 hits player 1; two players remain, the hit entity is not the
firer, and the firer's history gains the trace. -/
theorem c7_witness :
    c7Game.shell = some c7Shell ∧ c7Game.tracer = some [(1, 2)] ∧
      (c7Game.collisionStep c7co 1 c7Shell).1 = true ∧
      1 < (c7Game.collisionStep c7co 1 c7Shell).2.2.players.length ∧
      (GameState.update c7co 0 1 c7Game).players.map
          (fun q => (q.id, q.traces))
        = (c7Game.collisionStep c7co 1 c7Shell).2.2.players.map (fun q =>
            (q.id,
              if (∀ p ∈ (c7Game.collisionStep c7co 1 c7Shell).2.1,
                    p.id ≠ c7Shell.player) ∧ q.id = c7Shell.player then
                (q.add_trace ⟨c7Shell.init_power, c7Shell.init_angle,
                  c7Shell.wind, [(1, 2)]⟩).traces
              else q.traces)) := by
  have hcol : (c7Game.collisionStep c7co 1 c7Shell).1 = true := rfl
  have hlen : 1 < (c7Game.collisionStep c7co 1 c7Shell).2.2.players.length := by
    have h2 : (c7Game.collisionStep c7co 1 c7Shell).2.2.players.length = 2 :=
      rfl
    omega
  have h := c7_trace_recorded_iff_hit_not_firer c7co 0 1 c7Game c7Shell
    [(1, 2)] rfl rfl hcol
  exact ⟨rfl, rfl, hcol, hlen, h.1 hlen⟩


theorem randrange_ok {o : Oracle} {k : ℕ} {lo hi : ℤ} {vk : ℤ × ℕ}
    (h : randrange o k lo hi = .ok vk) : lo ≤ vk.1 ∧ vk.1 < hi := by
  unfold randrange at h
  split at h
  · exact absurd h (by simp)
  · rename_i hlt
    cases h
    have h1 : o k % (hi - lo).toNat < (hi - lo).toNat :=
      Nat.mod_lt _ (by omega)
    constructor
    · dsimp
      omega
    · dsimp
      omega

theorem gth_bounds {o : Oracle} {k : ℕ} {x prev max_h ntp : ℤ} {nfp : ℚ × ℚ}
    {vk : ℤ × ℕ}
    (h : get_terrain_height o k x prev max_h ntp nfp = .ok vk) :
    1 ≤ vk.1 ∧ vk.1 ≤ max_h - 1 := by
  unfold get_terrain_height at h
  have h2 := randrange_ok h
  exact ⟨le_trans (le_max_right _ 1) h2.1,
    by have := lt_of_lt_of_le h2.2 (min_le_right _ max_h); omega⟩

theorem genStep_spec {o : Oracle} {map_w max_h tank_w x : ℤ} {st st2 : GenState}
    (h : genStep o map_w max_h tank_w x st = .ok st2)
    (hinv : (1 ≤ st.prev_height ∧ st.prev_height ≤ max_h - 1) ∨ x ≤ st.next_tank_pos) :
    (1 ≤ st2.prev_height ∧ st2.prev_height ≤ max_h - 1) ∧
    st2.solid_parts = st.solid_parts ++ [[0, st2.prev_height]] := by
  simp only [genStep] at h
  split at h
  · simp at h
  · rename_i tkE tk heq
    have hkey : (1 ≤ tk.1 ∧ tk.1 ≤ max_h - 1) ∧ tk.2.solid_parts = st.solid_parts := by
      by_cases hc1 : x < st.next_tank_pos
      · rw [if_pos hc1] at heq
        cases hgth : get_terrain_height o st.k x st.prev_height max_h st.next_tank_pos
            st.next_feature_pos with
        | error e => rw [hgth] at heq; simp at heq
        | ok hk =>
            rw [hgth] at heq
            injection heq with h2
            subst h2
            exact ⟨gth_bounds hgth, rfl⟩
      · rw [if_neg hc1] at heq
        by_cases hc2 : x = st.next_tank_pos
        · rw [if_pos hc2] at heq
          cases hgth : get_terrain_height o st.k x st.prev_height max_h st.next_tank_pos
              st.next_feature_pos with
          | error e => rw [hgth] at heq; simp at heq
          | ok hk =>
              rw [hgth] at heq
              injection heq with h2
              subst h2
              exact ⟨gth_bounds hgth, rfl⟩
        · rw [if_neg hc2] at heq
          by_cases hc3 : st.next_tank_pos < x ∧ x < st.next_tank_pos + tank_w - 1
          · rw [if_pos hc3] at heq
            injection heq with h2
            subst h2
            refine ⟨?_, rfl⟩
            rcases hinv with hb | hle
            · exact hb
            · omega
          · rw [if_neg hc3] at heq
            cases hstp : st.s_t_p with
            | nil =>
                rw [hstp] at heq
                injection heq with h2
                subst h2
                refine ⟨?_, rfl⟩
                rcases hinv with hb | hle
                · exact hb
                · omega
            | cons t rest =>
                rw [hstp] at heq
                injection heq with h2
                subst h2
                refine ⟨?_, rfl⟩
                rcases hinv with hb | hle
                · exact hb
                · omega
    by_cases hf : ⌊tk.2.next_feature_pos.1⌋ = x
    · rw [if_pos hf] at h
      cases hfp : tk.2.feature_points with
      | nil => rw [hfp] at h; simp at h
      | cons f rest =>
          rw [hfp] at h
          cases h
          refine ⟨hkey.1, ?_⟩
          dsimp only
          rw [hkey.2]
    · rw [if_neg hf] at h
      cases h
      refine ⟨hkey.1, ?_⟩
      dsimp only
      rw [hkey.2]

theorem genLoop_inv {o : Oracle} {map_w max_h tank_w : ℤ} :
    ∀ (n : ℕ) (x : ℤ) (st st2 : GenState),
    genLoop o map_w max_h tank_w n x st = .ok st2 →
    ((1 ≤ st.prev_height ∧ st.prev_height ≤ max_h - 1) ∨ x ≤ st.next_tank_pos) →
    st2.solid_parts.length = st.solid_parts.length + n ∧
    ∀ c ∈ st2.solid_parts,
      c ∈ st.solid_parts ∨ ∃ t, c = [0, t] ∧ 1 ≤ t ∧ t ≤ max_h - 1 := by
  intro n
  induction n with
  | zero =>
      intro x st st2 h _
      cases h
      exact ⟨rfl, fun c hc => Or.inl hc⟩
  | succ n ih =>
      intro x st st2 h hinv
      unfold genLoop at h
      cases hg : genStep o map_w max_h tank_w x st with
      | error e => rw [hg] at h; simp at h
      | ok st1 =>
          rw [hg] at h
          obtain ⟨hb, hsp⟩ := genStep_spec hg hinv
          obtain ⟨hlen, hmem⟩ := ih (x + 1) st1 st2 h (Or.inl hb)
          constructor
          · rw [hlen, hsp, List.length_append]
            simp
            omega
          · intro c hc
            rcases hmem c hc with hold | hnew
            · rw [hsp] at hold
              rcases List.mem_append.mp hold with h1 | h2
              · exact Or.inl h1
              · simp only [List.mem_singleton] at h2
                exact Or.inr ⟨st1.prev_height, h2, hb.1, hb.2⟩
            · exact Or.inr hnew

theorem mem_insertSorted {a b : ℤ} : ∀ {l : List ℤ}, a ∈ insertSorted b l →
    a = b ∨ a ∈ l := by
  intro l
  induction l with
  | nil => intro h; simp [insertSorted] at h; exact Or.inl h
  | cons c l ih =>
      intro h
      unfold insertSorted at h
      split at h
      · rcases List.mem_cons.mp h with h1 | h2
        · exact Or.inr (List.mem_cons.mpr (Or.inl h1))
        · rcases ih h2 with h3 | h4
          · exact Or.inl h3
          · exact Or.inr (List.mem_cons.mpr (Or.inr h4))
      · rcases List.mem_cons.mp h with h1 | h2
        · exact Or.inl h1
        · exact Or.inr h2

theorem mem_pySorted {a : ℤ} : ∀ {l : List ℤ}, a ∈ pySorted l → a ∈ l := by
  intro l
  induction l with
  | nil => intro h; simp [pySorted] at h
  | cons c l ih =>
      intro h
      unfold pySorted at h
      rcases mem_insertSorted h with h1 | h2
      · exact List.mem_cons.mpr (Or.inl h1)
      · exact List.mem_cons.mpr (Or.inr (ih h2))

/-- C9 (amended): whenever generate_terrain returns normally on tank
positions that lie on the map (nonnegative), it returns exactly map-width
columns, each a single interval [0, top] with top in
[1, map height - 2 * tank height]. -/
theorem c9_generate_terrain_columns_bounded {o : Oracle} {fuel : ℕ}
    {map_w map_h : ℤ} {txs : List ℤ} {tank_w tank_h : ℤ}
    {parts : List (List ℤ)} {tpos : List (ℤ × ℤ)}
    (hpos : ∀ p ∈ txs, 0 ≤ p)
    (hok : generate_terrain o fuel map_w map_h txs tank_w tank_h =
      .ok (parts, tpos)) :
    parts.length = map_w.toNat ∧
    ∀ c ∈ parts, ∃ t, c = [0, t] ∧ 1 ≤ t ∧ t ≤ map_h - tank_h * 2 := by
  simp only [generate_terrain] at hok
  cases hr : randrange o 0 0 map_h with
  | error e => simp only [hr] at hok; exact absurd hok (by simp)
  | ok dk =>
      simp only [hr] at hok
      cases hs : pySorted txs with
      | nil => simp only [hs] at hok; exact absurd hok (by simp)
      | cons t rest =>
          simp only [hs] at hok
          cases ht : get_topology o fuel dk.2 (min dk.1 (map_h - tank_h * 2))
              map_w map_h (map_h - tank_h * 2) with
          | error e => simp only [ht] at hok; exact absurd hok (by simp)
          | ok fk =>
              simp only [ht] at hok
              cases hfp : fk.1 with
              | nil => simp only [hfp] at hok; exact absurd hok (by simp)
              | cons f frest =>
                  simp only [hfp] at hok
                  cases hl : genLoop o map_w (map_h - tank_h * 2) tank_w
                      map_w.toNat 0
                      ⟨min dk.1 (map_h - tank_h * 2), rest, t, frest, f,
                        [], [], fk.2⟩ with
                  | error e => simp only [hl] at hok; exact absurd hok (by simp)
                  | ok stF =>
                      simp only [hl] at hok
                      injection hok with h2
                      injection h2 with hp ht2
                      subst hp
                      subst ht2
                      have h0t : (0 : ℤ) ≤ t :=
                        hpos t (mem_pySorted (hs ▸ List.mem_cons_self t rest))
                      obtain ⟨hlen, hmem⟩ :=
                        genLoop_inv map_w.toNat 0 _ stF hl (Or.inr h0t)
                      constructor
                      · simpa using hlen
                      · intro c hc
                        rcases hmem c hc with h1 | ⟨u, hu1, hu2, hu3⟩
                        · simp at h1
                        · exact ⟨u, hu1, hu2, by omega⟩

/-- C9, counterexample: generate_terrain does not return normally for every
input.  On a 1 x 10 map with tank height 5 the height cap is
10 - 5 * 2 = 0, and the very first column's noise draw
randrange(max(0 - 4, 1), min(0 + 4, 0)) = randrange(1, 0) has an empty
range, so the run raises ValueError. -/
theorem c9_counterexample_empty_noise_range :
    generate_terrain c9Oracle 1 1 10 [100] 1 5 = .error .emptyRange := by
  have hnf : (⌈(1 : ℚ) / 200⌉).toNat = 1 := by
    rw [show (⌈(1 : ℚ) / 200⌉ : ℤ) = 1 by
      rw [Int.ceil_eq_iff]
      constructor
      · norm_num
      · norm_num]
    rfl
  norm_num [generate_terrain, randrange, pySorted, insertSorted, get_topology,
    hnf, topoLoop, drawIdx, gen_feature, create_valley, choice, genLoop,
    genStep, get_terrain_height, c9Oracle, Bind.bind, Except.bind]

/-- Concrete successful run backing the C9 witness: on a 1 x 20 map with
tank height 2 the run returns one column [0, 1]. -/
theorem c9_successful_run :
    generate_terrain c9Oracle 1 1 20 [100] 1 2 = .ok ([[0, 1]], []) := by
  have hnf : (⌈(1 : ℚ) / 200⌉).toNat = 1 := by
    rw [show (⌈(1 : ℚ) / 200⌉ : ℤ) = 1 by
      rw [Int.ceil_eq_iff]
      constructor
      · norm_num
      · norm_num]
    rfl
  norm_num [generate_terrain, randrange, pySorted, insertSorted, get_topology,
    hnf, topoLoop, drawIdx, gen_feature, create_valley, choice, genLoop,
    genStep, get_terrain_height, c9Oracle, Bind.bind, Except.bind]

/-- C9, witness: the amended theorem applied to the concrete successful
run. -/
theorem c9_witness :
    ([[(0 : ℤ), 1]] : List (List ℤ)).length = (1 : ℤ).toNat ∧
    ∀ c ∈ [[(0 : ℤ), 1]], ∃ t, c = [0, t] ∧ 1 ≤ t ∧ t ≤ 20 - 2 * 2 :=
  c9_generate_terrain_columns_bounded (by decide) c9_successful_run

end Theorems

end SE
